import Mathlib

/-!
# termite: disk-lite I/O driver and pooled memory blocks

A shallow embedding of `source/termite/core.cpp` (the reference-counted
`MemoryBlock` records of `memPool`) and of
`source/driver_disk_lite/disk_lite_driver.cpp` (path resolution, the blocking
driver, the asynchronous driver with its worker thread and response loop).

Pointers are handles (indices into the slab of the pool), nullable pointers are
`Option`, the process-wide singletons `g_core`, `g_blocking`, `g_async` are
fields of an explicit state that every function threads through.
-/

namespace Termite

/-! ## Machine integers -/

/-- One byte of file or buffer content. -/
abbrev Byte := Nat

/-- The value an `int32_t` holds after a computation whose mathematical result
is `x` (two's-complement wrap-around, as the atomic add/sub instructions do). -/
def wrapI32 (x : Int) : Int := (x + 2147483648) % 4294967296 - 2147483648

/-- The cast `(uint32_t)x` of a 64-bit signed value. -/
def toU32 (x : Int) : Nat := (x % 4294967296).toNat

/-! ## core.cpp: MemoryBlock records -/

/-- The public part of a block, `termite::MemoryBlock`: `data` pointer (nullable)
and `size`. -/
structure MemoryBlock where
  data : Option (List Byte)
  size : Nat
deriving DecidableEq, Repr

/-- The record `HeapMemoryImpl` (core.cpp:85-98). -/
structure HeapMemoryImpl where
  m : MemoryBlock
  refcount : Int
  alloc : Option Nat
deriving DecidableEq, Repr

/-- The constructor `HeapMemoryImpl()`: null data, size 0, refcount 1, no
allocator. -/
def HeapMemoryImpl.fresh : HeapMemoryImpl :=
  { m := { data := none, size := 0 }, refcount := 1, alloc := none }

/-- What the allocator and the pool were asked to give back, in call order. -/
inductive MemEvent where
  /-- The call `BX_FREE(m->alloc, m->m.data)` for the record with this handle. -/
  | bytesFreed (h : Nat)
  /-- The call `memPool.deleteInstance(m)` for the record with this handle. -/
  | recordReturned (h : Nat)
deriving DecidableEq, Repr

/-- The part of `struct Core` the memory blocks use, with the heap behind
`BX_ALLOC`.

`memPool` is the slab of `bx::Pool<HeapMemoryImpl>`: a handle is an index into
it. `bx::Pool` is a library type outside this repository; here `newInstance`
constructs a record in a slot not handed out before, `deleteInstance` leaves the
slot's memory in place (the record type has a trivial destructor), and
`liveRecords` counts `newInstance` calls minus `deleteInstance` calls.
`heapFree` is the number of bytes `BX_ALLOC` can still hand out: an allocation
of `n` bytes returns non-null exactly when `n ≤ heapFree`. A request of 0 bytes
is not treated specially, although `bx::CrtAllocator` (the default `g_alloc`)
answers it with null; the worked examples never make such a request. -/
structure Core where
  memPool : List HeapMemoryImpl
  liveRecords : Int
  heapFree : Nat
  memLog : List MemEvent
deriving DecidableEq, Repr

/-- The global allocator `g_alloc`, used when the caller passes a null
allocator. -/
def g_alloc : Nat := 0

/-- Embedding of `termite::createMemoryBlock` (core.cpp:867-880). The argument
`size` is a `uint32_t` at the call site. On allocation failure the function
returns null after `newInstance` has already taken a record. -/
def createMemoryBlock (size : Nat) (alloc : Option Nat) (c : Core) : Option Nat × Core :=
  let mem := c.memPool.length
  let alloc := match alloc with
    | some a => a
    | none => g_alloc
  if size ≤ c.heapFree then
    (some mem,
      { c with
        memPool := c.memPool ++
          [{ m := { data := some (List.replicate size 0), size := size },
             refcount := 1, alloc := some alloc }]
        liveRecords := c.liveRecords + 1
        heapFree := c.heapFree - size })
  else
    (none,
      { c with
        memPool := c.memPool ++ [HeapMemoryImpl.fresh]
        liveRecords := c.liveRecords + 1 })

/-- Embedding of `termite::refMemoryBlock` (core.cpp:908-913):
`atomicFetchAndAdd(&m->refcount, 1)`. The returned pointer is the argument. -/
def refMemoryBlock (mem : Nat) (c : Core) : Core :=
  match c.memPool[mem]? with
  | none => c
  | some m =>
    { c with memPool := c.memPool.set mem { m with refcount := wrapI32 (m.refcount + 1) } }

/-- Embedding of `termite::releaseMemoryBlock` (core.cpp:915-928): `atomicDec`
returns the decremented value; when it is 0 the bytes are freed if the record has
an allocator, and the record goes back to the pool. -/
def releaseMemoryBlock (mem : Nat) (c : Core) : Core :=
  match c.memPool[mem]? with
  | none => c
  | some m =>
    let rc := wrapI32 (m.refcount - 1)
    if rc = 0 then
      if m.alloc.isSome then
        { memPool := c.memPool.set mem
            { m := { data := none, size := 0 }, refcount := rc, alloc := m.alloc }
          liveRecords := c.liveRecords - 1
          heapFree := c.heapFree + m.m.size
          memLog := c.memLog ++ [MemEvent.bytesFreed mem, MemEvent.recordReturned mem] }
      else
        { c with
          memPool := c.memPool.set mem { m with refcount := rc }
          liveRecords := c.liveRecords - 1
          memLog := c.memLog ++ [MemEvent.recordReturned mem] }
    else
      { c with memPool := c.memPool.set mem { m with refcount := rc } }

/-- The reference count stored in the record behind a handle. -/
def refcountOf (mem : Nat) (c : Core) : Option Int :=
  (c.memPool[mem]?).map (fun m => m.refcount)

/-- How many times the backing bytes of a record were passed to `BX_FREE`. -/
def timesFreed (mem : Nat) (c : Core) : Nat :=
  c.memLog.count (MemEvent.bytesFreed mem)

/-- How many times a record was passed to `memPool.deleteInstance`. -/
def timesReturned (mem : Nat) (c : Core) : Nat :=
  c.memLog.count (MemEvent.recordReturned mem)

/-- `k` consecutive calls of `refMemoryBlock` on the same block. -/
def refTimes : Nat → Nat → Core → Core
  | 0, _, c => c
  | k + 1, mem, c => refTimes k mem (refMemoryBlock mem c)

/-- `k` consecutive calls of `releaseMemoryBlock` on the same block. -/
def releaseTimes : Nat → Nat → Core → Core
  | 0, _, c => c
  | k + 1, mem, c => releaseTimes k mem (releaseMemoryBlock mem c)

/-- One call of the reference-counting API on a block. -/
inductive RefOp where
  | ref
  | release
deriving DecidableEq, Repr

/-- Applies one API call to the block behind a handle. -/
def applyRefOp (mem : Nat) (c : Core) : RefOp → Core
  | RefOp.ref => refMemoryBlock mem c
  | RefOp.release => releaseMemoryBlock mem c

/-- Applies a sequence of API calls, first to last. -/
def applyRefOps (mem : Nat) (c : Core) (ops : List RefOp) : Core :=
  ops.foldl (applyRefOp mem) c

/-- A caller holds a reference at every call: each call of the sequence finds a
reference count of at least 1, and a `ref` finds it below the `int32_t` maximum. -/
def WellUsed (mem : Nat) : Core → List RefOp → Prop
  | _, [] => True
  | c, op :: ops =>
    (∃ rc, refcountOf mem c = some rc ∧ 1 ≤ rc ∧ (op = RefOp.ref → rc < 2147483647)) ∧
      WellUsed mem (applyRefOp mem c op) ops

/-! ## disk_lite_driver.cpp: paths and files -/

/-- The enum `IoPathType::Enum`. -/
inductive IoPathType where
  | Assets
  | Relative
  | Absolute
deriving DecidableEq, Repr

/-- The method `bx::Path::join` on a non-Windows platform (a library type outside
this repository): the separator is inserted between two non-empty parts. The
fixed capacity of `bx::Path` is not modelled. -/
def pathJoin (base path : String) : String :=
  if base.isEmpty then path
  else if path.isEmpty then base
  else base ++ "/" ++ path

/-- Embedding of `resolvePath` (disk_lite_driver.cpp:106-127), the branch compiled
when `BX_PLATFORM_IOS` is 0. -/
def resolvePath (uri rootDir : String) (pathType : IoPathType) : String :=
  match pathType with
  | IoPathType.Assets => pathJoin (pathJoin rootDir "assets") uri
  | IoPathType.Relative => pathJoin rootDir uri
  | IoPathType.Absolute => uri

/-- One call into the file layer of the C runtime. -/
inductive FsOp where
  | openRead (path : String)
  | openWrite (path : String)
  | read (path : String) (count : Nat)
  | write (path : String) (count : Nat)
deriving DecidableEq, Repr

/-- The disk as `bx::CrtFileReader` and `bx::CrtFileWriter` see it (library types
outside this repository).

`files` maps the paths that open for reading to their content. `writeDenied`
lists the paths that do not open for writing. `readCap` and `writeCap`, when set,
bound the number of bytes one `read` or `write` call transfers (a short read or
write). `opLog` records the calls made. -/
structure FileSystem where
  files : List (String × List Byte)
  writeDenied : List String
  readCap : Option Nat
  writeCap : Option Nat
  opLog : List FsOp
deriving DecidableEq, Repr

/-- Replaces the content stored under a path. -/
def setFile (path : String) (content : List Byte) (files : List (String × List Byte)) :
    List (String × List Byte) :=
  (path, content) :: files.filter (fun p => p.1 ≠ path)

/-- The number of bytes a transfer of `n` requested bytes moves under a cap. -/
def capped (cap : Option Nat) (n : Nat) : Nat :=
  match cap with
  | none => n
  | some k => min n k

/-- The call `CrtFileReader::open`: the content of the file if it opens. -/
def crtOpenRead (path : String) (fs : FileSystem) : Option (List Byte) × FileSystem :=
  (fs.files.lookup path, { fs with opLog := fs.opLog ++ [FsOp.openRead path] })

/-- The call `CrtFileReader::read` of `n` bytes from the start of an open file:
the bytes delivered. -/
def crtRead (path : String) (content : List Byte) (n : Nat) (fs : FileSystem) :
    List Byte × FileSystem :=
  let bytes := content.take (capped fs.readCap n)
  (bytes, { fs with opLog := fs.opLog ++ [FsOp.read path bytes.length] })

/-- The call `CrtFileWriter::open(path, false)`: whether the file opened; an
opened file is created or truncated. -/
def crtOpenWrite (path : String) (fs : FileSystem) : Bool × FileSystem :=
  if path ∈ fs.writeDenied then
    (false, { fs with opLog := fs.opLog ++ [FsOp.openWrite path] })
  else
    (true, { fs with files := setFile path [] fs.files
                     opLog := fs.opLog ++ [FsOp.openWrite path] })

/-- The call `CrtFileWriter::write(data, size)` on a freshly opened file: the
number of bytes written. -/
def crtWrite (path : String) (data : Option (List Byte)) (size : Nat) (fs : FileSystem) :
    Nat × FileSystem :=
  let src := match data with
    | some d => d
    | none => []
  let bytes := src.take (capped fs.writeCap size)
  (bytes.length, { fs with files := setFile path bytes fs.files
                           opLog := fs.opLog ++ [FsOp.write path bytes.length] })

/-! ## disk_lite_driver.cpp: driver state -/

/-- The struct `BlockingAssetDriver`. -/
structure BlockingAssetDriver where
  alloc : Option Nat
  rootDir : String
deriving DecidableEq, Repr

/-- The enum `AsyncRequest::Type`. -/
inductive AsyncRequestType where
  | Read
  | Write
deriving DecidableEq, Repr

/-- The struct `AsyncRequest`. -/
structure AsyncRequest where
  type : AsyncRequestType
  uri : String
  mem : Option Nat
  pathType : IoPathType
deriving DecidableEq, Repr

/-- The enum `AsyncResponse::Type`. -/
inductive AsyncResponseType where
  | RequestOpenFailed
  | RequestReadFailed
  | RequestReadOk
  | RequestWriteFailed
  | RequestWriteOk
deriving DecidableEq, Repr

/-- The struct `AsyncResponse`. -/
structure AsyncResponse where
  type : AsyncResponseType
  uri : String
  mem : Option Nat
  bytesWritten : Nat
deriving DecidableEq, Repr

/-- The struct `AsyncAssetDriver`. A queue pointer is null (`none`) until
`asyncInit` creates the queue; `callbacks` is the nullable pointer to the
registered `IoDriverEventsI`. -/
structure AsyncAssetDriver where
  alloc : Option Nat
  callbacks : Option Nat
  rootDir : String
  requestQueue : Option (List AsyncRequest)
  responseQueue : Option (List AsyncResponse)
  stop : Int
  numRequests : Int
deriving DecidableEq, Repr

/-- One invocation of a method of `IoDriverEventsI`, with its arguments. -/
inductive CallbackEvent where
  | onReadComplete (uri : String) (mem : Option Nat)
  | onOpenError (uri : String)
  | onReadError (uri : String)
  | onWriteComplete (uri : String) (bytesWritten : Nat)
  | onWriteError (uri : String)
deriving DecidableEq, Repr

/-- The uri argument of a callback invocation. -/
def CallbackEvent.uri : CallbackEvent → String
  | CallbackEvent.onReadComplete u _ => u
  | CallbackEvent.onOpenError u => u
  | CallbackEvent.onReadError u => u
  | CallbackEvent.onWriteComplete u _ => u
  | CallbackEvent.onWriteError u => u

/-- The whole state the driver works on: the core (`g_core`), the disk, the two
driver singletons (`g_blocking`, `g_async`), the local variable `response` of the
worker thread (it lives across the iterations of the worker loop), the callbacks
invoked so far and the diagnostics logged so far. -/
structure World where
  core : Core
  fs : FileSystem
  blocking : BlockingAssetDriver
  async : AsyncAssetDriver
  response : AsyncResponse
  callbackLog : List CallbackEvent
  errorLog : List String
deriving DecidableEq, Repr

/-- The local `AsyncResponse response;` of `asyncThread` before its first use:
`bx::Path` constructs empty; the other fields are uninitialised and read here as
zero. -/
def AsyncResponse.initial : AsyncResponse :=
  { type := AsyncResponseType.RequestOpenFailed, uri := "", mem := none, bytesWritten := 0 }

/-! ## disk_lite_driver.cpp: the blocking driver -/

/-- The effect of `file.read(mem->data, ...)` on the buffer of a block: the bytes
delivered overwrite the front of the buffer. -/
def storeBytes (mem : Nat) (bytes : List Byte) (c : Core) : Core :=
  match c.memPool[mem]? with
  | none => c
  | some m =>
    let old := match m.m.data with
      | some d => d
      | none => []
    let filled : HeapMemoryImpl :=
      { m with m := { data := some (bytes ++ old.drop bytes.length), size := m.m.size } }
    { c with memPool := c.memPool.set mem filled }

/-- The size field `mem->size` of the block behind a handle. -/
def blockSize (mem : Nat) (c : Core) : Nat :=
  match c.memPool[mem]? with
  | none => 0
  | some m => m.m.size

/-- Embedding of `blockReadRaw` (disk_lite_driver.cpp:152-180). The result kind
written through `pRes` is returned with the block. The file size is the `int64_t`
result of `seek`; it is cast to `uint32_t` for `createMemoryBlock`. -/
def blockReadRaw (uri : String) (pathType : IoPathType) (w : World) :
    (Option Nat × AsyncResponseType) × World :=
  let filepath := resolvePath uri w.blocking.rootDir pathType
  match crtOpenRead filepath w.fs with
  | (none, fs1) => ((none, AsyncResponseType.RequestOpenFailed), { w with fs := fs1 })
  | (some content, fs1) =>
    let size : Int := content.length
    let r : Option Nat × Core × FileSystem :=
      if size ≠ 0 then
        match createMemoryBlock (toU32 size) w.blocking.alloc w.core with
        | (some mem, c1) =>
          let rd := crtRead filepath content (blockSize mem c1) fs1
          (some mem, storeBytes mem rd.1 c1, rd.2)
        | (none, c1) => (none, c1, fs1)
      else (none, w.core, fs1)
    let mem := r.1
    ((mem, if mem.isSome then AsyncResponseType.RequestReadOk
           else AsyncResponseType.RequestReadFailed),
      { w with core := r.2.1, fs := r.2.2 })

/-- Embedding of `blockWriteRaw` (disk_lite_driver.cpp:182-202). The block is
passed as the `const MemoryBlock` the pointer refers to. -/
def blockWriteRaw (uri : String) (mem : MemoryBlock) (pathType : IoPathType) (w : World) :
    (Nat × AsyncResponseType) × World :=
  if pathType ≠ IoPathType.Assets then
    let filepath := resolvePath uri w.blocking.rootDir pathType
    match crtOpenWrite filepath w.fs with
    | (false, fs1) => ((0, AsyncResponseType.RequestOpenFailed), { w with fs := fs1 })
    | (true, fs1) =>
      let wr := crtWrite filepath mem.data mem.size fs1
      let size := wr.1
      ((size, if size ≠ 0 then AsyncResponseType.RequestWriteOk
              else AsyncResponseType.RequestWriteFailed),
        { w with fs := wr.2 })
  else
    ((0, AsyncResponseType.RequestWriteFailed), w)

/-! ## disk_lite_driver.cpp: the asynchronous driver -/

/-- The `MemoryBlock` a request's `mem` pointer refers to. A null or dangling
pointer is outside the model and reads as an empty block. -/
def derefBlock (mem : Option Nat) (c : Core) : MemoryBlock :=
  match mem with
  | none => { data := none, size := 0 }
  | some h =>
    match c.memPool[h]? with
    | none => { data := none, size := 0 }
    | some m => m.m

/-- One iteration of the inner loop of `asyncThread`
(disk_lite_driver.cpp:263-279): pop a request, decrement `numRequests`, run the
blocking primitive, push one response. When the pop fails the state is
unchanged. The local `response` is reused from one iteration to the next: the
Read branch assigns `type`, `uri` and `mem`, the Write branch assigns `type` and
`bytesWritten`. -/
def workerStep (w : World) : World :=
  match w.async.requestQueue with
  | some (request :: rest) =>
    let w1 : World := { w with async := { w.async with
      requestQueue := some rest
      numRequests := wrapI32 (w.async.numRequests - 1) } }
    match request.type with
    | AsyncRequestType.Read =>
      let r := blockReadRaw request.uri request.pathType w1
      let w2 := r.2
      let response : AsyncResponse :=
        { w2.response with type := r.1.2, uri := request.uri, mem := r.1.1 }
      { w2 with
        response := response
        async := { w2.async with
          responseQueue := w2.async.responseQueue.map (fun q => q ++ [response]) } }
    | AsyncRequestType.Write =>
      let r := blockWriteRaw request.uri (derefBlock request.mem w1.core) request.pathType w1
      let w2 := r.2
      let response : AsyncResponse :=
        { w2.response with type := r.1.2, bytesWritten := r.1.1 }
      { w2 with
        response := response
        async := { w2.async with
          responseQueue := w2.async.responseQueue.map (fun q => q ++ [response]) } }
  | _ => w

/-- The iterations of the inner loop of `asyncThread`, at most `n` of them. -/
def workerSteps : Nat → World → World
  | 0, w => w
  | n + 1, w => workerSteps n (workerStep w)

/-- The inner loop `while (requestQueue->pop(&request))` of `asyncThread` run with
no request submitted meanwhile: one iteration per queued request. -/
def workerDrain (w : World) : World :=
  match w.async.requestQueue with
  | none => w
  | some q => workerSteps q.length w

/-- Embedding of `asyncRead` (disk_lite_driver.cpp:344-359): returns null. The
field `mem` of the request is left uninitialised by the source and reads here as
null. -/
def asyncRead (uri : String) (pathType : IoPathType) (w : World) : Option Nat × World :=
  let request : AsyncRequest :=
    { type := AsyncRequestType.Read, uri := uri, mem := none, pathType := pathType }
  (none, { w with async := { w.async with
    numRequests := wrapI32 (w.async.numRequests + 1)
    requestQueue := w.async.requestQueue.map (fun q => q ++ [request]) } })

/-- Embedding of `asyncWrite` (disk_lite_driver.cpp:361-377): returns 0. -/
def asyncWrite (uri : String) (mem : Nat) (pathType : IoPathType) (w : World) : Nat × World :=
  let core1 := refMemoryBlock mem w.core
  let request : AsyncRequest :=
    { type := AsyncRequestType.Write, uri := uri, mem := some mem, pathType := pathType }
  (0, { w with
    core := core1
    async := { w.async with
      numRequests := wrapI32 (w.async.numRequests + 1)
      requestQueue := w.async.requestQueue.map (fun q => q ++ [request]) } })

/-- The `switch (response.type)` of `asyncRunAsyncLoop`: the callback invoked for
one response. -/
def dispatch (response : AsyncResponse) : CallbackEvent :=
  match response.type with
  | AsyncResponseType.RequestReadOk =>
    CallbackEvent.onReadComplete response.uri response.mem
  | AsyncResponseType.RequestOpenFailed => CallbackEvent.onOpenError response.uri
  | AsyncResponseType.RequestReadFailed => CallbackEvent.onReadError response.uri
  | AsyncResponseType.RequestWriteOk =>
    CallbackEvent.onWriteComplete response.uri response.bytesWritten
  | AsyncResponseType.RequestWriteFailed => CallbackEvent.onWriteError response.uri

/-- The loop `while (responseQueue->pop(&response))` of `asyncRunAsyncLoop`: the
queue left and the callbacks invoked, appended to those invoked before. -/
def drainResponses : List AsyncResponse → List CallbackEvent →
    List AsyncResponse × List CallbackEvent
  | [], log => ([], log)
  | response :: rest, log => drainResponses rest (log ++ [dispatch response])

/-- Embedding of `asyncRunAsyncLoop` (disk_lite_driver.cpp:379-404). With no
callbacks registered it returns at once. -/
def asyncRunAsyncLoop (w : World) : World :=
  match w.async.callbacks with
  | none => w
  | some _ =>
    match w.async.responseQueue with
    | none => w
    | some q =>
      let r := drainResponses q w.callbackLog
      { w with
        async := { w.async with responseQueue := some r.1 }
        callbackLog := r.2 }

/-- The uris carried by the requests of a queue; a null queue carries none. -/
def requestUris (q : Option (List AsyncRequest)) : List String :=
  match q with
  | none => []
  | some l => l.map (fun r => r.uri)

/-- The uris carried by the responses of a queue; a null queue carries none. -/
def responseUris (q : Option (List AsyncResponse)) : List String :=
  match q with
  | none => []
  | some l => l.map (fun r => r.uri)

/-! ## Concrete states used by the worked examples -/

/-- A core with an empty pool and 64 bytes of heap. -/
def exampleCore : Core :=
  { memPool := [], liveRecords := 0, heapFree := 64, memLog := [] }

/-- A disk with some files under `/data`, one of them empty. -/
def exampleDisk : FileSystem :=
  { files := [("/data/empty", []), ("/data/a", [1, 2, 3]), ("/data/b", [4]),
              ("/data/c", [5, 6]), ("/data/config.txt", [104, 101, 108, 108, 111])]
    writeDenied := ["/data/locked"]
    readCap := none
    writeCap := none
    opLog := [] }

/-- Both drivers initialised on `/data`, callbacks registered, queues empty. -/
def exampleWorld : World :=
  { core := exampleCore
    fs := exampleDisk
    blocking := { alloc := none, rootDir := "/data" }
    async := { alloc := some 0, callbacks := some 1, rootDir := "",
               requestQueue := some [], responseQueue := some [], stop := 0, numRequests := 0 }
    response := AsyncResponse.initial
    callbackLog := []
    errorLog := [] }

/-- A file content of 2^32 + 1 zero bytes. -/
def bigContent : List Byte := List.replicate 4294967297 0

/-- A disk holding one file of 2^32 + 1 bytes. -/
def bigFileWorld : World :=
  { exampleWorld with
    fs := { exampleDisk with files := [("/big", bigContent)] } }

/-- The record a successful `createMemoryBlock` of `sz` bytes from allocator
`a` builds, with the reference count set to `rc`. -/
def createdRecord (sz a : Nat) (rc : Int) : HeapMemoryImpl :=
  { m := { data := some (List.replicate sz 0), size := sz }, refcount := rc, alloc := some a }

/-- The state `exampleWorld` with no callbacks registered and one response
waiting in the response queue. -/
def noCallbackWorld : World :=
  { exampleWorld with
    async := { exampleWorld.async with
      callbacks := none
      responseQueue := some [{ type := AsyncResponseType.RequestReadOk, uri := "a",
                               mem := some 0, bytesWritten := 0 }] } }

/-- The state `exampleWorld` after `createMemoryBlock(10)`: block 0 holds ten
zero bytes. -/
def tenByteWorld : World :=
  { exampleWorld with core := (createMemoryBlock 10 none exampleWorld.core).2 }

/-- The state `exampleWorld` with one response of each kind queued. -/
def fiveResponsesWorld : World :=
  { exampleWorld with
    async := { exampleWorld.async with
      responseQueue := some
        [{ type := AsyncResponseType.RequestReadOk, uri := "a", mem := some 0, bytesWritten := 0 },
         { type := AsyncResponseType.RequestOpenFailed, uri := "b", mem := none,
           bytesWritten := 0 },
         { type := AsyncResponseType.RequestReadFailed, uri := "c", mem := none,
           bytesWritten := 0 },
         { type := AsyncResponseType.RequestWriteOk, uri := "d", mem := none, bytesWritten := 7 },
         { type := AsyncResponseType.RequestWriteFailed, uri := "e", mem := none,
           bytesWritten := 0 }] } }

/-- The state of a block whose callers hold their references: the count is a
non-negative `int32_t`, the record was returned and its bytes freed at most once
more than at the start (`r0`, `f0`), and not at all while the count is positive. -/
def RefInv (mem r0 f0 : Nat) (c : Core) : Prop :=
  ∃ m, c.memPool[mem]? = some m ∧ 0 ≤ m.refcount ∧ m.refcount ≤ 2147483647 ∧
    timesReturned mem c ≤ r0 + 1 ∧ timesFreed mem c ≤ f0 + 1 ∧
    (1 ≤ m.refcount → timesReturned mem c = r0 ∧ timesFreed mem c = f0)

/-! ## disk_lite_driver.cpp: wrappers, initialisation and shutdown -/

/-- Embedding of `blockInit` (disk_lite_driver.cpp:130-137): stores the allocator
and the normalised root, returns 0. `normalize` stands for
`bx::Path::normalizeSelf`, a library method outside this repository. -/
def blockInit (normalize : String → String) (alloc : Option Nat) (uri : String) (w : World) :
    Int × World :=
  (0, { w with blocking := { alloc := alloc, rootDir := normalize uri } })

/-- Embedding of `blockGetUri` (disk_lite_driver.cpp:250-253). -/
def blockGetUri (w : World) : String := w.blocking.rootDir

/-- Embedding of `blockRead` (disk_lite_driver.cpp:204-220): the block of
`blockReadRaw`, after a diagnostic through `T_ERROR_API` for the kinds
`RequestOpenFailed` and `RequestReadFailed`. -/
def blockRead (uri : String) (pathType : IoPathType) (w : World) : Option Nat × World :=
  let r := blockReadRaw uri pathType w
  let mem := r.1.1
  let w1 := r.2
  match r.1.2 with
  | AsyncResponseType.RequestReadOk => (mem, w1)
  | AsyncResponseType.RequestOpenFailed =>
    (mem, { w1 with errorLog := w1.errorLog ++ ["Unable to open file " ++ uri ++ " for reading"] })
  | AsyncResponseType.RequestReadFailed =>
    (mem, { w1 with errorLog := w1.errorLog ++ ["Unable read file " ++ uri] })
  | _ => (mem, w1)

/-- Embedding of `blockWrite` (disk_lite_driver.cpp:222-239): the byte count of
`blockWriteRaw`, after a diagnostic through `T_ERROR_API` for the kinds
`RequestOpenFailed` and `RequestWriteFailed`. -/
def blockWrite (uri : String) (mem : MemoryBlock) (pathType : IoPathType) (w : World) :
    Nat × World :=
  let r := blockWriteRaw uri mem pathType w
  let size := r.1.1
  let w1 := r.2
  match r.1.2 with
  | AsyncResponseType.RequestWriteOk => (size, w1)
  | AsyncResponseType.RequestOpenFailed =>
    (size, { w1 with errorLog := w1.errorLog ++ ["Unable to open file " ++ uri ++ " for writing"] })
  | AsyncResponseType.RequestWriteFailed =>
    (size, { w1 with errorLog := w1.errorLog ++ ["Unable write file " ++ uri] })
  | _ => (size, w1)

/-- The result kinds that report a failure. -/
def isFailureKind : AsyncResponseType → Bool
  | AsyncResponseType.RequestOpenFailed => true
  | AsyncResponseType.RequestReadFailed => true
  | AsyncResponseType.RequestWriteFailed => true
  | AsyncResponseType.RequestReadOk => false
  | AsyncResponseType.RequestWriteOk => false

/-- The constructor `AsyncAssetDriver()` (disk_lite_driver.cpp:86-94); `bx::Path`
constructs empty. -/
def AsyncAssetDriver.initial : AsyncAssetDriver :=
  { alloc := none, callbacks := none, rootDir := "", requestQueue := none,
    responseQueue := none, stop := 0, numRequests := 0 }

/-- What `asyncInit` and `asyncShutdown` do beyond assigning fields of the
driver. -/
inductive DriverEffect where
  | threadStarted
  | workerNotified
  | threadJoined
  | responseQueueDeleted
  | responsePoolDestroyed
  | requestQueueDeleted
  | requestPoolDestroyed
deriving DecidableEq, Repr

/-- The value `asyncInit` returns: 0 or `T_ERR_OUTOFMEM` (a header constant
outside this repository). -/
inductive InitResult where
  | ok
  | outOfMem
deriving DecidableEq, Repr

/-- Embedding of `asyncInit` (disk_lite_driver.cpp:291-310). `reqPoolOk` and
`respPoolOk` say whether `requestPool.create` and `responsePool.create` succeed.
The parameter `uri` is not used by the source. The started thread constructs its
local `response`. The `assert` on entry is not modelled. -/
def asyncInit (reqPoolOk respPoolOk : Bool) (alloc : Option Nat) (_uri : String)
    (callbacks : Option Nat) (w : World) : (InitResult × List DriverEffect) × World :=
  let a1 : AsyncAssetDriver := { w.async with alloc := alloc, callbacks := callbacks }
  if reqPoolOk then
    let a2 : AsyncAssetDriver := { a1 with requestQueue := some [] }
    if respPoolOk then
      let a3 : AsyncAssetDriver := { a2 with responseQueue := some [] }
      ((InitResult.ok, [DriverEffect.threadStarted]),
        { w with async := a3, response := AsyncResponse.initial })
    else ((InitResult.outOfMem, []), { w with async := a2 })
  else ((InitResult.outOfMem, []), { w with async := a1 })

/-- Embedding of `asyncShutdown` (disk_lite_driver.cpp:312-332). The source
deletes the queues and destroys the pools without resetting the pointers, so
the queue fields are left as they are. -/
def asyncShutdown (w : World) : List DriverEffect × World :=
  match w.async.alloc with
  | none => ([], w)
  | some _ =>
    ([DriverEffect.workerNotified, DriverEffect.threadJoined,
      DriverEffect.responseQueueDeleted, DriverEffect.responsePoolDestroyed,
      DriverEffect.requestQueueDeleted, DriverEffect.requestPoolDestroyed],
      { w with async := { w.async with
          stop := 1
          numRequests := wrapI32 (w.async.numRequests + 100) } })

/-- Embedding of `asyncSetCallbacks` (disk_lite_driver.cpp:334-337). -/
def asyncSetCallbacks (callbacks : Option Nat) (w : World) : World :=
  { w with async := { w.async with callbacks := callbacks } }

/-- Embedding of `asyncGetCallbacks` (disk_lite_driver.cpp:339-342). -/
def asyncGetCallbacks (w : World) : Option Nat := w.async.callbacks

/-- Embedding of `asyncGetUri` (disk_lite_driver.cpp:411-414). -/
def asyncGetUri (w : World) : String := w.async.rootDir

/-- One call into the asynchronous driver other than `runAsyncLoop`, or one
iteration of the worker loop. -/
inductive DriverCall where
  | read (uri : String) (pathType : IoPathType)
  | write (uri : String) (mem : Nat) (pathType : IoPathType)
  | init (reqPoolOk respPoolOk : Bool) (alloc : Option Nat) (uri : String)
      (callbacks : Option Nat)
  | setCallbacks (callbacks : Option Nat)
  | shutdown
  | workerIteration
deriving DecidableEq, Repr

/-- The effect of one such call on the state. -/
def stepCall (w : World) : DriverCall → World
  | DriverCall.read uri pathType => (asyncRead uri pathType w).2
  | DriverCall.write uri mem pathType => (asyncWrite uri mem pathType w).2
  | DriverCall.init reqPoolOk respPoolOk alloc uri callbacks =>
    (asyncInit reqPoolOk respPoolOk alloc uri callbacks w).2
  | DriverCall.setCallbacks callbacks => asyncSetCallbacks callbacks w
  | DriverCall.shutdown => (asyncShutdown w).2
  | DriverCall.workerIteration => workerStep w

/-- A sequence of such calls, first to last. -/
def runCalls (w : World) (calls : List DriverCall) : World :=
  calls.foldl stepCall w

/-! ## core.cpp: the pool lock -/

/-- One step of a memory-block function that matters for the pool lock
`memPoolLock`, in the order the source executes them. -/
inductive PoolStep where
  | lockAcquire
  | lockRelease
  | newInstance
  | deleteInstance
  | allocBytes
  | freeBytes
  | atomicAdd
  | atomicDec
deriving DecidableEq, Repr

/-- The steps of `createMemoryBlock` (core.cpp:867-880): `memPoolLock.lock()`,
`memPool.newInstance()`, `memPoolLock.unlock()`, then `BX_ALLOC`. -/
def createMemoryBlockSteps : List PoolStep :=
  [PoolStep.lockAcquire, PoolStep.newInstance, PoolStep.lockRelease, PoolStep.allocBytes]

/-- The steps of `refMemoryBlockPtr` (core.cpp:882-890). -/
def refMemoryBlockPtrSteps : List PoolStep :=
  [PoolStep.lockAcquire, PoolStep.newInstance, PoolStep.lockRelease]

/-- The steps of `copyMemoryBlock` (core.cpp:892-906). -/
def copyMemoryBlockSteps : List PoolStep :=
  [PoolStep.lockAcquire, PoolStep.newInstance, PoolStep.lockRelease, PoolStep.allocBytes]

/-- The steps of `releaseMemoryBlock` (core.cpp:915-928). The statement
`bx::LockScope(g_core->memPoolLock);` constructs an unnamed temporary, which is
destroyed at the end of that statement: the lock is taken and given back before
`memPool.deleteInstance(m)` runs. -/
def releaseMemoryBlockSteps (reachesZero hasAlloc : Bool) : List PoolStep :=
  PoolStep.atomicDec ::
    (if reachesZero then
      (if hasAlloc then [PoolStep.freeBytes] else []) ++
        [PoolStep.lockAcquire, PoolStep.lockRelease, PoolStep.deleteInstance]
    else [])

/-- Whether every `newInstance` and `deleteInstance` of a step sequence happens
while the lock is held, `held` telling whether it is held at the start. -/
def poolGuardedFrom : Bool → List PoolStep → Bool
  | _, [] => true
  | _, PoolStep.lockAcquire :: rest => poolGuardedFrom true rest
  | _, PoolStep.lockRelease :: rest => poolGuardedFrom false rest
  | held, PoolStep.newInstance :: rest => held && poolGuardedFrom held rest
  | held, PoolStep.deleteInstance :: rest => held && poolGuardedFrom held rest
  | held, _ :: rest => poolGuardedFrom held rest

/-- Whether a function entered without the lock mutates the pool only under the
lock. -/
def poolGuarded (steps : List PoolStep) : Bool := poolGuardedFrom false steps

/-! ## More concrete states -/

/-- The state `exampleWorld` on a disk where one `read` call delivers at most one
byte. -/
def shortReadWorld : World :=
  { exampleWorld with fs := { exampleDisk with readCap := some 1 } }

/-- A state in which nothing was initialised yet: both drivers as constructed. -/
def freshWorld : World :=
  { exampleWorld with
    blocking := { alloc := none, rootDir := "" }
    async := AsyncAssetDriver.initial }

/-- The state `exampleWorld` with one block whose reference count is the
`int32_t` maximum. -/
def maxRefWorld : World :=
  { exampleWorld with
    core := { exampleCore with
      memPool := [{ m := { data := some [0], size := 1 }, refcount := 2147483647,
                    alloc := some 0 }]
      liveRecords := 1 } }

/-! ## core.cpp: copyMemoryBlock -/

/-- Embedding of `termite::copyMemoryBlock` (core.cpp:892-906): as
`createMemoryBlock`, with `memcpy` of `size` bytes of `data` into the new buffer.
On allocation failure the function returns null after `newInstance` has already
taken a record. -/
def copyMemoryBlock (data : List Byte) (size : Nat) (alloc : Option Nat) (c : Core) :
    Option Nat × Core :=
  let mem := c.memPool.length
  let alloc := match alloc with
    | some a => a
    | none => g_alloc
  if size ≤ c.heapFree then
    (some mem,
      { c with
        memPool := c.memPool ++
          [{ m := { data := some (data.take size ++ List.replicate (size - data.length) 0),
                    size := size },
             refcount := 1, alloc := some alloc }]
        liveRecords := c.liveRecords + 1
        heapFree := c.heapFree - size })
  else
    (none,
      { c with
        memPool := c.memPool ++ [HeapMemoryImpl.fresh]
        liveRecords := c.liveRecords + 1 })

/-! ## disk_lite_driver.cpp: the pending counter, statement by statement -/

/-- The pending counter `numRequests` and the request queue, with the two places
where a thread is between its two statements: the submitting thread after
`numRequests++` and before `requestQueue->push(request)` (it then holds the
request), and the worker after `requestQueue->pop(&request)` and before
`numRequests--`. -/
structure PendingState where
  numRequests : Int
  requestQueue : List AsyncRequest
  submitting : Option AsyncRequest
  dequeued : Bool
deriving DecidableEq, Repr

/-- The statements of `asyncRead`/`asyncWrite` (disk_lite_driver.cpp:351-355,
369-373) and of the inner loop of `asyncThread` (disk_lite_driver.cpp:263-267)
that touch the counter or the request queue. -/
inductive PendingStep where
  /-- The statements `reqMutex.lock(); numRequests++; reqMutex.unlock();`. -/
  | beginSubmit (request : AsyncRequest)
  /-- The statement `requestQueue->push(request)`. -/
  | finishSubmit
  /-- The call `requestQueue->pop(&request)` of the loop condition. -/
  | workerPop
  /-- The block `lock_guard lk(reqMutex); numRequests--;`. -/
  | workerDecrement
deriving DecidableEq, Repr

/-- The effect of one statement. There is one submitting thread and one worker:
a submit cannot begin while another is between its statements, and the worker
pops only after the decrement for the previous pop. A statement that cannot run
leaves the state as it is. -/
def stepPending (s : PendingState) : PendingStep → PendingState
  | PendingStep.beginSubmit request =>
    match s.submitting with
    | none => { s with numRequests := wrapI32 (s.numRequests + 1), submitting := some request }
    | some _ => s
  | PendingStep.finishSubmit =>
    match s.submitting with
    | some request => { s with requestQueue := s.requestQueue ++ [request], submitting := none }
    | none => s
  | PendingStep.workerPop =>
    if s.dequeued then s
    else
      match s.requestQueue with
      | _ :: rest => { s with requestQueue := rest, dequeued := true }
      | [] => s
  | PendingStep.workerDecrement =>
    if s.dequeued then { s with numRequests := wrapI32 (s.numRequests - 1), dequeued := false }
    else s

/-- The counter and queue of a freshly initialised driver. -/
def PendingState.initial : PendingState :=
  { numRequests := 0, requestQueue := [], submitting := none, dequeued := false }

/-- The statements of a list executed first to last. -/
def runPending (s : PendingState) (steps : List PendingStep) : PendingState :=
  steps.foldl stepPending s

/-- The number of requests submitted and not yet accounted for by the worker:
those in the queue, the one being submitted and the one just popped. -/
def pendingTotal (s : PendingState) : Nat :=
  s.requestQueue.length + (if s.submitting.isSome then 1 else 0) + (if s.dequeued then 1 else 0)

/-- The counter and queue of a state of the driver in which no submit and no
dequeue is under way. -/
def pendingOf (w : World) : PendingState :=
  { numRequests := w.async.numRequests
    requestQueue := match w.async.requestQueue with
      | some q => q
      | none => []
    submitting := none
    dequeued := false }

/-- The statements of `k` complete submissions of the same request, none of them
dequeued. -/
def floodSteps (request : AsyncRequest) : Nat → List PendingStep
  | 0 => []
  | k + 1 => PendingStep.beginSubmit request :: PendingStep.finishSubmit :: floodSteps request k

/-- A read request for the file `a`. -/
def readRequestA : AsyncRequest :=
  { type := AsyncRequestType.Read, uri := "a", mem := none, pathType := IoPathType.Relative }

/-! ## Reference counting: auxiliary facts -/

theorem wrapI32_idem (x : Int) : wrapI32 (wrapI32 x) = wrapI32 x := by
  unfold wrapI32; omega

theorem wrapI32_add_wrap (x y : Int) : wrapI32 (wrapI32 x + y) = wrapI32 (x + y) := by
  unfold wrapI32; omega

theorem wrapI32_of_range {x : Int} (h1 : -2147483648 ≤ x) (h2 : x < 2147483648) :
    wrapI32 x = x := by
  unfold wrapI32; omega

theorem wrapI32_eq_zero_iff (x : Int) : wrapI32 x = 0 ↔ x % 4294967296 = 0 := by
  unfold wrapI32; omega

theorem getElem?_set_of_some {α : Type} {l : List α} {i : Nat} {a b : α}
    (h : l[i]? = some a) : (l.set i b)[i]? = some b := by
  obtain ⟨hi, _⟩ := List.getElem?_eq_some.mp h
  exact List.getElem?_set_self hi

theorem set_self_of_some {α : Type} {l : List α} {i : Nat} {a : α}
    (h : l[i]? = some a) : l.set i a = l := by
  apply List.ext_getElem?
  intro j
  by_cases hj : i = j
  · subst hj; rw [getElem?_set_of_some h, h]
  · rw [List.getElem?_set_ne hj]

theorem refMemoryBlock_eq {mem : Nat} {c : Core} {m : HeapMemoryImpl}
    (hm : c.memPool[mem]? = some m) :
    refMemoryBlock mem c =
      { c with memPool := c.memPool.set mem { m with refcount := wrapI32 (m.refcount + 1) } } := by
  simp [refMemoryBlock, hm]

theorem releaseMemoryBlock_keep {mem : Nat} {c : Core} {m : HeapMemoryImpl}
    (hm : c.memPool[mem]? = some m) (hrc : wrapI32 (m.refcount - 1) ≠ 0) :
    releaseMemoryBlock mem c =
      { c with memPool := c.memPool.set mem { m with refcount := wrapI32 (m.refcount - 1) } } := by
  simp [releaseMemoryBlock, hm, hrc]

theorem releaseMemoryBlock_free {mem : Nat} {c : Core} {m : HeapMemoryImpl} {a : Nat}
    (hm : c.memPool[mem]? = some m) (hrc : wrapI32 (m.refcount - 1) = 0)
    (ha : m.alloc = some a) :
    releaseMemoryBlock mem c =
      { memPool := c.memPool.set mem
          { m := { data := none, size := 0 }, refcount := 0, alloc := some a }
        liveRecords := c.liveRecords - 1
        heapFree := c.heapFree + m.m.size
        memLog := c.memLog ++ [MemEvent.bytesFreed mem, MemEvent.recordReturned mem] } := by
  simp [releaseMemoryBlock, hm, hrc, ha]

theorem releaseMemoryBlock_free_noalloc {mem : Nat} {c : Core} {m : HeapMemoryImpl}
    (hm : c.memPool[mem]? = some m) (hrc : wrapI32 (m.refcount - 1) = 0)
    (ha : m.alloc = none) :
    releaseMemoryBlock mem c =
      { c with
        memPool := c.memPool.set mem { m with refcount := 0 }
        liveRecords := c.liveRecords - 1
        memLog := c.memLog ++ [MemEvent.recordReturned mem] } := by
  simp [releaseMemoryBlock, hm, hrc, ha]

/-- Closed form of `k` consecutive `refMemoryBlock` calls. -/
theorem refTimes_eq (mem : Nat) : ∀ (k : Nat) (c : Core) (m : HeapMemoryImpl),
    c.memPool[mem]? = some m → wrapI32 m.refcount = m.refcount →
    refTimes k mem c =
      { c with memPool := c.memPool.set mem { m with refcount := wrapI32 (m.refcount + k) } } := by
  intro k
  induction k with
  | zero =>
    intro c m hm hr
    simp [refTimes, hr, set_self_of_some hm]
  | succ k ih =>
    intro c m hm hr
    rw [refTimes, refMemoryBlock_eq hm]
    rw [ih _ { m with refcount := wrapI32 (m.refcount + 1) } (getElem?_set_of_some hm)
      (wrapI32_idem _)]
    simp only [List.set_set, wrapI32_add_wrap]
    have : m.refcount + 1 + (k : Int) = m.refcount + ((k + 1 : Nat) : Int) := by
      push_cast; ring
    rw [this]

/-- Closed form of `j` consecutive `releaseMemoryBlock` calls none of which
brings the count to zero. -/
theorem releaseTimes_keep (mem : Nat) : ∀ (j : Nat) (c : Core) (m : HeapMemoryImpl),
    c.memPool[mem]? = some m → wrapI32 m.refcount = m.refcount →
    (∀ i : Nat, 1 ≤ i → i ≤ j → wrapI32 (m.refcount - i) ≠ 0) →
    releaseTimes j mem c =
      { c with memPool := c.memPool.set mem { m with refcount := wrapI32 (m.refcount - j) } } := by
  intro j
  induction j with
  | zero =>
    intro c m hm hr _
    simp [releaseTimes, hr, set_self_of_some hm]
  | succ j ih =>
    intro c m hm hr hne
    have h1 : wrapI32 (m.refcount - 1) ≠ 0 := by
      have := hne 1 (le_refl _) (by omega)
      simpa using this
    rw [releaseTimes, releaseMemoryBlock_keep hm h1]
    rw [ih _ { m with refcount := wrapI32 (m.refcount - 1) } (getElem?_set_of_some hm)
      (wrapI32_idem _)]
    · simp only [List.set_set]
      have e : wrapI32 (wrapI32 (m.refcount - 1) - (j : Int)) =
          wrapI32 (m.refcount - ((j + 1 : Nat) : Int)) := by
        unfold wrapI32; push_cast; omega
      rw [e]
    · intro i hi1 hij
      have := hne (i + 1) (by omega) (by omega)
      intro h0
      apply this
      have e : wrapI32 (m.refcount - ((i + 1 : Nat) : Int)) =
          wrapI32 (wrapI32 (m.refcount - 1) - (i : Int)) := by
        unfold wrapI32; push_cast; omega
      rw [e]; exact h0

theorem releaseTimes_add (mem : Nat) : ∀ (a b : Nat) (c : Core),
    releaseTimes (a + b) mem c = releaseTimes b mem (releaseTimes a mem c) := by
  intro a
  induction a with
  | zero => intro b c; simp [releaseTimes]
  | succ a ih =>
    intro b c
    have e : a + 1 + b = (a + b) + 1 := by omega
    rw [e, releaseTimes, releaseTimes, ih]

/-- What a successful `createMemoryBlock` returns: the handle of the appended
record, which holds `size` bytes, count 1 and a non-null allocator. -/
theorem createMemoryBlock_some {sz : Nat} {alloc : Option Nat} {c c1 : Core} {mem : Nat}
    (h : createMemoryBlock sz alloc c = (some mem, c1)) :
    sz ≤ c.heapFree ∧ mem = c.memPool.length ∧
    ∃ a, c1 = { memPool := c.memPool ++
                  [{ m := { data := some (List.replicate sz 0), size := sz },
                     refcount := 1, alloc := some a }]
                liveRecords := c.liveRecords + 1
                heapFree := c.heapFree - sz
                memLog := c.memLog } := by
  unfold createMemoryBlock at h
  by_cases hs : sz ≤ c.heapFree
  · simp only [hs, if_true, Prod.mk.injEq, Option.some.injEq] at h
    refine ⟨hs, h.1.symm, _, h.2.symm⟩
  · simp [hs] at h

theorem applyRefOps_append (mem : Nat) (c : Core) (xs ys : List RefOp) :
    applyRefOps mem c (xs ++ ys) = applyRefOps mem (applyRefOps mem c xs) ys := by
  simp [applyRefOps, List.foldl_append]

theorem WellUsed_append_left (mem : Nat) : ∀ (xs ys : List RefOp) (c : Core),
    WellUsed mem c (xs ++ ys) → WellUsed mem c xs := by
  intro xs
  induction xs with
  | nil => intro ys c _; trivial
  | cons x xs ih =>
    intro ys c h
    exact ⟨h.1, ih ys _ h.2⟩

theorem RefInv_step {mem r0 f0 : Nat} {c : Core} {m : HeapMemoryImpl} (op : RefOp)
    (hm : c.memPool[mem]? = some m) (h1 : 1 ≤ m.refcount)
    (hop : op = RefOp.ref → m.refcount < 2147483647)
    (hinv : RefInv mem r0 f0 c) : RefInv mem r0 f0 (applyRefOp mem c op) := by
  obtain ⟨m0, hm0, _, hmax, _, _, hpos⟩ := hinv
  have hmm : m0 = m := by rw [hm] at hm0; exact (Option.some.inj hm0).symm
  subst hmm
  obtain ⟨hr, hf⟩ := hpos h1
  cases op with
  | ref =>
    have hlt := hop rfl
    have hw : wrapI32 (m0.refcount + 1) = m0.refcount + 1 :=
      wrapI32_of_range (by omega) (by omega)
    simp only [applyRefOp]
    rw [refMemoryBlock_eq hm, hw]
    refine ⟨{ m0 with refcount := m0.refcount + 1 }, getElem?_set_of_some hm, ?_, ?_, ?_, ?_, ?_⟩
    · show 0 ≤ m0.refcount + 1; omega
    · show m0.refcount + 1 ≤ 2147483647; omega
    · show timesReturned mem c ≤ r0 + 1; omega
    · show timesFreed mem c ≤ f0 + 1; omega
    · intro _; exact ⟨hr, hf⟩
  | release =>
    have hw : wrapI32 (m0.refcount - 1) = m0.refcount - 1 :=
      wrapI32_of_range (by omega) (by omega)
    simp only [applyRefOp]
    by_cases hz : m0.refcount = 1
    · have h0 : wrapI32 (m0.refcount - 1) = 0 := by rw [hw]; omega
      cases ha : m0.alloc with
      | none =>
        rw [releaseMemoryBlock_free_noalloc hm h0 ha]
        refine ⟨{ m0 with refcount := 0 }, getElem?_set_of_some hm, le_refl _, ?_,
          ?_, ?_, ?_⟩
        · show (0 : Int) ≤ 2147483647; omega
        · simp [timesReturned, List.count_append] at hr ⊢; omega
        · simp [timesFreed, List.count_append] at hf ⊢; omega
        · intro hcontra
          have : (1 : Int) ≤ 0 := hcontra
          omega
      | some a =>
        rw [releaseMemoryBlock_free hm h0 ha]
        refine ⟨_, getElem?_set_of_some hm, le_refl _, ?_, ?_, ?_, ?_⟩
        · show (0 : Int) ≤ 2147483647; omega
        · simp [timesReturned, List.count_append] at hr ⊢; omega
        · simp [timesFreed, List.count_append] at hf ⊢; omega
        · intro hcontra
          have : (1 : Int) ≤ 0 := hcontra
          omega
    · have hne : wrapI32 (m0.refcount - 1) ≠ 0 := by rw [hw]; omega
      rw [releaseMemoryBlock_keep hm hne, hw]
      refine ⟨{ m0 with refcount := m0.refcount - 1 }, getElem?_set_of_some hm, ?_, ?_, ?_, ?_, ?_⟩
      · show 0 ≤ m0.refcount - 1; omega
      · show m0.refcount - 1 ≤ 2147483647; omega
      · show timesReturned mem c ≤ r0 + 1; omega
      · show timesFreed mem c ≤ f0 + 1; omega
      · intro _; exact ⟨hr, hf⟩

theorem RefInv_applyRefOps (mem r0 f0 : Nat) : ∀ (ops : List RefOp) (c : Core),
    WellUsed mem c ops → RefInv mem r0 f0 c → RefInv mem r0 f0 (applyRefOps mem c ops) := by
  intro ops
  induction ops with
  | nil => intro c _ h; exact h
  | cons op ops ih =>
    intro c hw hinv
    obtain ⟨⟨rc, hrc, h1, hop⟩, hrest⟩ := hw
    obtain ⟨m, hm, _⟩ := id hinv
    have hrcm : rc = m.refcount := by
      simp [refcountOf, hm] at hrc; exact hrc.symm
    subst hrcm
    have hstep := RefInv_step op hm h1 hop hinv
    exact ih _ hrest hstep

/-! ## The blocking driver -/

theorem createMemoryBlock_ok {sz : Nat} (alloc : Option Nat) {c : Core} (h : sz ≤ c.heapFree) :
    createMemoryBlock sz alloc c =
      (some c.memPool.length,
        { memPool := c.memPool ++
            [{ m := { data := some (List.replicate sz 0), size := sz }, refcount := 1,
               alloc := some (match alloc with
                 | some a => a
                 | none => g_alloc) }]
          liveRecords := c.liveRecords + 1
          heapFree := c.heapFree - sz
          memLog := c.memLog }) := by
  simp [createMemoryBlock, h]

theorem blockSize_storeBytes (mem : Nat) (bytes : List Byte) (c : Core) :
    blockSize mem (storeBytes mem bytes c) = blockSize mem c := by
  unfold storeBytes blockSize
  cases hm : c.memPool[mem]? with
  | none => simp [hm]
  | some m => simp [getElem?_set_of_some hm]

/-- C2: for every uri, every path kind other than `Assets` and every block, when
the target opens for writing, `blockWriteRaw` returns `RequestWriteOk` if the
byte count it returns is non-zero and `RequestWriteFailed` if it is zero; a block
of size 0 always gives byte count 0 with `RequestWriteFailed`. -/
theorem C2_write_kind_follows_count (uri : String) (pathType : IoPathType) (mem : MemoryBlock)
    (w : World) (hkind : pathType ≠ IoPathType.Assets)
    (hopen : (crtOpenWrite (resolvePath uri w.blocking.rootDir pathType) w.fs).1 = true) :
    ((blockWriteRaw uri mem pathType w).1.1 ≠ 0 →
        (blockWriteRaw uri mem pathType w).1.2 = AsyncResponseType.RequestWriteOk) ∧
      ((blockWriteRaw uri mem pathType w).1.1 = 0 →
        (blockWriteRaw uri mem pathType w).1.2 = AsyncResponseType.RequestWriteFailed) ∧
      (mem.size = 0 →
        (blockWriteRaw uri mem pathType w).1 = (0, AsyncResponseType.RequestWriteFailed)) := by
  have hden : resolvePath uri w.blocking.rootDir pathType ∉ w.fs.writeDenied := by
    intro hin
    simp [crtOpenWrite, hin] at hopen
  refine ⟨?_, ?_, ?_⟩
  · intro h
    simp only [blockWriteRaw, hkind, ne_eq, not_false_eq_true, if_true, crtOpenWrite, hden,
      if_false] at h ⊢
    simp [h]
  · intro h
    simp only [blockWriteRaw, hkind, ne_eq, not_false_eq_true, if_true, crtOpenWrite, hden,
      if_false] at h ⊢
    simp [h]
  · intro h
    simp [blockWriteRaw, hkind, crtOpenWrite, hden, crtWrite, h, capped]
    cases w.fs.writeCap <;> simp

theorem C2_write_kind_follows_count_witness :
    (((blockWriteRaw "out.bin" { data := some [7, 7], size := 2 } IoPathType.Relative
          exampleWorld).1.1 ≠ 0 →
        (blockWriteRaw "out.bin" { data := some [7, 7], size := 2 } IoPathType.Relative
          exampleWorld).1.2 = AsyncResponseType.RequestWriteOk) ∧
      ((blockWriteRaw "out.bin" { data := some [7, 7], size := 2 } IoPathType.Relative
          exampleWorld).1.1 = 0 →
        (blockWriteRaw "out.bin" { data := some [7, 7], size := 2 } IoPathType.Relative
          exampleWorld).1.2 = AsyncResponseType.RequestWriteFailed) ∧
      ((2 : Nat) = 0 →
        (blockWriteRaw "out.bin" { data := some [7, 7], size := 2 } IoPathType.Relative
          exampleWorld).1 = (0, AsyncResponseType.RequestWriteFailed))) ∧
      (blockWriteRaw "out.bin" { data := some [7, 7], size := 2 } IoPathType.Relative
          exampleWorld).1 = (2, AsyncResponseType.RequestWriteOk) :=
  ⟨C2_write_kind_follows_count "out.bin" IoPathType.Relative { data := some [7, 7], size := 2 }
      exampleWorld (by decide) (by decide), by decide⟩

/-- C3: for every uri and every block, `blockWriteRaw` with path kind `Assets`
returns byte count 0 and `RequestWriteFailed` and leaves the whole state as it
was: no file operation is logged and the files are unchanged. -/
theorem C3_assets_write_rejected (uri : String) (mem : MemoryBlock) (w : World) :
    (blockWriteRaw uri mem IoPathType.Assets w).1 = (0, AsyncResponseType.RequestWriteFailed) ∧
      (blockWriteRaw uri mem IoPathType.Assets w).2 = w ∧
      (blockWriteRaw uri mem IoPathType.Assets w).2.fs.opLog = w.fs.opLog ∧
      (blockWriteRaw uri mem IoPathType.Assets w).2.fs.files = w.fs.files := by
  simp [blockWriteRaw]

/-- The outcome of `blockReadRaw` on a non-empty file when the allocation
succeeds. -/
theorem blockReadRaw_nonempty (uri : String) (pathType : IoPathType) (w : World)
    (content : List Byte)
    (hopen : w.fs.files.lookup (resolvePath uri w.blocking.rootDir pathType) = some content)
    (hne : content ≠ [])
    (halloc : toU32 content.length ≤ w.core.heapFree) :
    (blockReadRaw uri pathType w).1 =
        (some w.core.memPool.length, AsyncResponseType.RequestReadOk) ∧
      blockSize w.core.memPool.length (blockReadRaw uri pathType w).2.core =
        toU32 content.length := by
  have hlen : (content.length : Int) ≠ 0 := by
    have : content.length ≠ 0 := fun h => hne (List.length_eq_zero.mp h)
    exact_mod_cast this
  constructor
  · simp [blockReadRaw, crtOpenRead, hopen, hlen, createMemoryBlock_ok _ halloc]
  · simp only [blockReadRaw, crtOpenRead, hopen, hlen, ne_eq, not_false_eq_true, if_true,
      createMemoryBlock_ok _ halloc, blockSize_storeBytes]
    simp [blockSize]

theorem bigContent_length : bigContent.length = 4294967297 :=
  List.length_replicate _ _

/-- C10 (as stated, refuted): the file `/big` of `bigFileWorld` opens for
reading and has 2^32 + 1 bytes, the allocation (of 1 byte) succeeds, and the
block returned by `blockReadRaw` with `RequestReadOk` has size 1, not
2^32 + 1. -/
theorem C10_large_file_counterexample :
    bigFileWorld.fs.files.lookup
        (resolvePath "/big" bigFileWorld.blocking.rootDir IoPathType.Absolute) =
        some bigContent ∧
      bigContent.length = 4294967297 ∧
      toU32 bigContent.length = 1 ∧
      toU32 bigContent.length ≤ bigFileWorld.core.heapFree ∧
      (blockReadRaw "/big" IoPathType.Absolute bigFileWorld).1 =
        (some 0, AsyncResponseType.RequestReadOk) ∧
      blockSize 0 (blockReadRaw "/big" IoPathType.Absolute bigFileWorld).2.core = 1 ∧
      blockSize 0 (blockReadRaw "/big" IoPathType.Absolute bigFileWorld).2.core ≠
        bigContent.length := by
  have hopen : bigFileWorld.fs.files.lookup
      (resolvePath "/big" bigFileWorld.blocking.rootDir IoPathType.Absolute) =
      some bigContent := by
    simp [bigFileWorld, resolvePath, List.lookup]
  have hne : bigContent ≠ [] := by
    intro h
    have := congrArg List.length h
    rw [bigContent_length] at this
    exact absurd this (by decide)
  have hu : toU32 (bigContent.length : Int) = 1 := by
    rw [bigContent_length]; decide
  have halloc : toU32 (bigContent.length : Int) ≤ bigFileWorld.core.heapFree := by
    rw [hu]; decide
  have h := blockReadRaw_nonempty "/big" IoPathType.Absolute bigFileWorld _ hopen hne halloc
  rw [hu] at h
  have hsize : blockSize 0 (blockReadRaw "/big" IoPathType.Absolute bigFileWorld).2.core = 1 :=
    h.2
  refine ⟨hopen, bigContent_length, hu, halloc, h.1, hsize, ?_⟩
  rw [hsize, bigContent_length]
  decide

/-- C10 (amended): for every file that opens for reading with byte length
n > 0 and for which the allocation succeeds, `blockReadRaw` returns a block with
`RequestReadOk` whose size is n modulo 2^32 (the length is cast to `uint32_t`);
the size is exactly n when n < 2^32. -/
theorem C10_block_size_is_length_mod (uri : String) (pathType : IoPathType) (w : World)
    (content : List Byte)
    (hopen : w.fs.files.lookup (resolvePath uri w.blocking.rootDir pathType) = some content)
    (hne : 0 < content.length)
    (halloc : toU32 content.length ≤ w.core.heapFree) :
    ∃ mem, (blockReadRaw uri pathType w).1 = (some mem, AsyncResponseType.RequestReadOk) ∧
      blockSize mem (blockReadRaw uri pathType w).2.core = content.length % 4294967296 ∧
      (content.length < 4294967296 →
        blockSize mem (blockReadRaw uri pathType w).2.core = content.length) := by
  have hne2 : content ≠ [] := by
    intro h; rw [h] at hne; exact absurd hne (by decide)
  obtain ⟨h1, h2⟩ := blockReadRaw_nonempty uri pathType w content hopen hne2 halloc
  have hu : toU32 (content.length : Int) = content.length % 4294967296 := by
    unfold toU32; omega
  refine ⟨_, h1, ?_, ?_⟩
  · rw [h2, hu]
  · intro hlt
    rw [h2, hu]
    exact Nat.mod_eq_of_lt hlt

theorem C10_block_size_is_length_mod_witness :
    ∃ mem, (blockReadRaw "a" IoPathType.Relative exampleWorld).1 =
        (some mem, AsyncResponseType.RequestReadOk) ∧
      blockSize mem (blockReadRaw "a" IoPathType.Relative exampleWorld).2.core =
        [1, 2, 3].length % 4294967296 ∧
      ([1, 2, 3].length < 4294967296 →
        blockSize mem (blockReadRaw "a" IoPathType.Relative exampleWorld).2.core =
          [1, 2, 3].length) :=
  C10_block_size_is_length_mod "a" IoPathType.Relative exampleWorld [1, 2, 3]
    (by decide) (by decide) (by decide)

/-! ## Reference counting of memory blocks -/

/-- The state after a successful create, `k` refs and `j ≤ k` releases, for
`k < 2^32`: only the count of the new record differs from the state after the
create. -/
theorem releaseTimes_refTimes_created {sz : Nat} {alloc : Option Nat} {c c1 : Core} {mem : Nat}
    (hcreate : createMemoryBlock sz alloc c = (some mem, c1)) (k j : Nat)
    (hk : k < 4294967296) (hj : j ≤ k) :
    ∃ a, (releaseTimes j mem (refTimes k mem c1)).memPool[mem]? =
        some (createdRecord sz a (wrapI32 (1 + (k : Int) - (j : Int)))) ∧
      (releaseTimes j mem (refTimes k mem c1)).liveRecords = c.liveRecords + 1 ∧
      (releaseTimes j mem (refTimes k mem c1)).memLog = c.memLog ∧
      (releaseTimes j mem (refTimes k mem c1)).heapFree + sz = c.heapFree := by
  obtain ⟨hsz, hmem, a, hc1⟩ := createMemoryBlock_some hcreate
  have hm : c1.memPool[mem]? = some (createdRecord sz a 1) := by
    rw [hc1, hmem]; simp [createdRecord]
  have hr : refTimes k mem c1 = _ :=
    refTimes_eq mem k c1 _ hm (show wrapI32 (1 : Int) = 1 by decide)
  have hm2 : (refTimes k mem c1).memPool[mem]? =
      some (createdRecord sz a (wrapI32 (1 + (k : Int)))) := by
    rw [hr]; exact getElem?_set_of_some hm
  have hrel := releaseTimes_keep mem j (refTimes k mem c1) _ hm2 (wrapI32_idem _) (by
    intro i hi1 hij
    show wrapI32 (wrapI32 (1 + (k : Int)) - (i : Int)) ≠ 0
    unfold wrapI32; omega)
  have e : wrapI32 (wrapI32 (1 + (k : Int)) - (j : Int)) = wrapI32 (1 + (k : Int) - (j : Int)) := by
    unfold wrapI32; omega
  refine ⟨a, ?_, ?_, ?_, ?_⟩
  · rw [hrel, ← e]; exact getElem?_set_of_some hm2
  · rw [hrel, hr, hc1]
  · rw [hrel, hr, hc1]
  · rw [hrel, hr, hc1]; show c.heapFree - sz + sz = c.heapFree; omega

/-- After a successful create and exactly 2^32 refs the `int32_t` count has
wrapped back to 1: the first release frees and returns the record, and so does
release number 2^32 + 1. -/
theorem double_free_after_wrap {sz : Nat} {alloc : Option Nat} {c c1 : Core} {mem : Nat}
    (hcreate : createMemoryBlock sz alloc c = (some mem, c1)) (k : Nat)
    (hk : k = 4294967296) :
    (releaseTimes 1 mem (refTimes k mem c1)).memLog =
        c.memLog ++ [MemEvent.bytesFreed mem, MemEvent.recordReturned mem] ∧
      (releaseTimes (k + 1) mem (refTimes k mem c1)).memLog =
        c.memLog ++ [MemEvent.bytesFreed mem, MemEvent.recordReturned mem] ++
          [MemEvent.bytesFreed mem, MemEvent.recordReturned mem] := by
  obtain ⟨hsz, hmem, a, hc1⟩ := createMemoryBlock_some hcreate
  have hm : c1.memPool[mem]? = some (createdRecord sz a 1) := by
    rw [hc1, hmem]; simp [createdRecord]
  have hlog : c1.memLog = c.memLog := by rw [hc1]
  have hr : refTimes k mem c1 = _ :=
    refTimes_eq mem k c1 _ hm (show wrapI32 (1 : Int) = 1 by decide)
  have hw : wrapI32 ((1 : Int) + (k : Int)) = 1 := by
    subst hk; unfold wrapI32; omega
  have hm1 : (refTimes k mem c1).memPool[mem]? = some (createdRecord sz a 1) := by
    rw [hr]
    show (List.set _ mem (createdRecord sz a (wrapI32 ((1 : Int) + (k : Int)))))[mem]? = _
    rw [hw]; exact getElem?_set_of_some hm
  have hlog1 : (refTimes k mem c1).memLog = c.memLog := by rw [hr]; exact hlog
  generalize refTimes k mem c1 = c2 at hm1 hlog1 ⊢
  obtain ⟨j, hj⟩ : ∃ j : Nat, j = 4294967295 := ⟨_, rfl⟩
  have hsplit : releaseTimes (k + 1) mem c2 =
      releaseMemoryBlock mem (releaseTimes j mem (releaseMemoryBlock mem c2)) := by
    have e : k + 1 = 1 + (j + 1) := by omega
    rw [e, releaseTimes_add, releaseTimes_add]
    rfl
  have hone : releaseTimes 1 mem c2 = releaseMemoryBlock mem c2 := rfl
  rw [hsplit, hone]
  -- the first release frees
  have hfirst := releaseMemoryBlock_free hm1
    (show wrapI32 ((1 : Int) - 1) = 0 by decide) (rfl : (createdRecord sz a 1).alloc = some a)
  have hm2 : (releaseMemoryBlock mem c2).memPool[mem]? =
      some { m := { data := none, size := 0 }, refcount := 0, alloc := some a } := by
    rw [hfirst]; exact getElem?_set_of_some hm1
  have hlog2 : (releaseMemoryBlock mem c2).memLog =
      c.memLog ++ [MemEvent.bytesFreed mem, MemEvent.recordReturned mem] := by
    rw [hfirst]; show c2.memLog ++ _ = _; rw [hlog1]
  generalize releaseMemoryBlock mem c2 = c3 at hm2 hlog2 ⊢
  -- the next 2^32 - 1 releases keep the count away from zero
  have hkeep := releaseTimes_keep mem j c3 _ hm2
    (show wrapI32 (0 : Int) = 0 by decide) (by
    intro i hi1 hij
    show wrapI32 ((0 : Int) - (i : Int)) ≠ 0
    subst hj; unfold wrapI32; omega)
  have hw3 : wrapI32 ((0 : Int) - (j : Int)) = 1 := by
    subst hj; unfold wrapI32; omega
  have hm3 : (releaseTimes j mem c3).memPool[mem]? =
      some { m := { data := none, size := 0 }, refcount := 1, alloc := some a } := by
    rw [hkeep]
    show (List.set _ mem (HeapMemoryImpl.mk (MemoryBlock.mk none 0)
      (wrapI32 ((0 : Int) - (j : Int))) (some a)))[mem]? = _
    rw [hw3]
    exact getElem?_set_of_some hm2
  have hlog3 : (releaseTimes j mem c3).memLog =
      c.memLog ++ [MemEvent.bytesFreed mem, MemEvent.recordReturned mem] := by
    rw [hkeep]; exact hlog2
  have hlast := releaseMemoryBlock_free hm3
    (show wrapI32 ((1 : Int) - 1) = 0 by decide) (rfl : some a = some a)
  refine ⟨hlog2, ?_⟩
  rw [hlast]
  show (releaseTimes j mem c3).memLog ++ _ = _
  rw [hlog3]

/-- C8 (as stated, refuted): with k = 2^32 the `int32_t` count wraps back to 1
after the refs, so the first of the k+1 releases already frees the bytes and
returns the record, and the last release does both a second time. -/
theorem C8_wraparound_counterexample :
    (createMemoryBlock 8 none exampleCore).1 = some 0 ∧
      (releaseTimes 1 0
        (refTimes 4294967296 0 (createMemoryBlock 8 none exampleCore).2)).memLog =
        [MemEvent.bytesFreed 0, MemEvent.recordReturned 0] ∧
      (releaseTimes (4294967296 + 1) 0
        (refTimes 4294967296 0 (createMemoryBlock 8 none exampleCore).2)).memLog =
        [MemEvent.bytesFreed 0, MemEvent.recordReturned 0,
         MemEvent.bytesFreed 0, MemEvent.recordReturned 0] := by
  have hcreate : createMemoryBlock 8 none exampleCore =
      (some 0, (createMemoryBlock 8 none exampleCore).2) := by decide
  have h := double_free_after_wrap hcreate 4294967296 rfl
  exact ⟨by decide, h.1, h.2⟩

/-- C8 (amended): for every size and every k < 2^32, after a successful
`createMemoryBlock`, k calls of `refMemoryBlock` and then k+1 calls of
`releaseMemoryBlock`: none of the first k releases frees anything or returns a
record (the pool has one live record more than before the create), and the last
release frees the backing bytes once and returns the record once, bringing the
live-record count and the free heap back to their values before the create. -/
theorem C8_create_ref_release_frees_once (sz : Nat) (alloc : Option Nat) (c c1 : Core)
    (mem k : Nat) (hcreate : createMemoryBlock sz alloc c = (some mem, c1))
    (hk : k < 4294967296) :
    (∀ j, j ≤ k →
        (releaseTimes j mem (refTimes k mem c1)).memLog = c.memLog ∧
        timesFreed mem (releaseTimes j mem (refTimes k mem c1)) = timesFreed mem c ∧
        timesReturned mem (releaseTimes j mem (refTimes k mem c1)) = timesReturned mem c ∧
        (releaseTimes j mem (refTimes k mem c1)).liveRecords = c.liveRecords + 1) ∧
      (releaseTimes (k + 1) mem (refTimes k mem c1)).memLog =
        c.memLog ++ [MemEvent.bytesFreed mem, MemEvent.recordReturned mem] ∧
      timesFreed mem (releaseTimes (k + 1) mem (refTimes k mem c1)) = timesFreed mem c + 1 ∧
      timesReturned mem (releaseTimes (k + 1) mem (refTimes k mem c1)) =
        timesReturned mem c + 1 ∧
      (releaseTimes (k + 1) mem (refTimes k mem c1)).liveRecords = c.liveRecords ∧
      (releaseTimes (k + 1) mem (refTimes k mem c1)).heapFree = c.heapFree := by
  have hbefore : ∀ j, j ≤ k →
      (releaseTimes j mem (refTimes k mem c1)).memLog = c.memLog ∧
      timesFreed mem (releaseTimes j mem (refTimes k mem c1)) = timesFreed mem c ∧
      timesReturned mem (releaseTimes j mem (refTimes k mem c1)) = timesReturned mem c ∧
      (releaseTimes j mem (refTimes k mem c1)).liveRecords = c.liveRecords + 1 := by
    intro j hj
    obtain ⟨a, _, hlive, hlog, _⟩ := releaseTimes_refTimes_created hcreate k j hk hj
    exact ⟨hlog, by simp [timesFreed, hlog], by simp [timesReturned, hlog], hlive⟩
  obtain ⟨a, hm, hlive, hlog, hheap⟩ :=
    releaseTimes_refTimes_created hcreate k k hk (le_refl k)
  have hsplit : releaseTimes (k + 1) mem (refTimes k mem c1) =
      releaseMemoryBlock mem (releaseTimes k mem (refTimes k mem c1)) := by
    rw [releaseTimes_add]; rfl
  have hz : wrapI32 ((createdRecord sz a (wrapI32 (1 + (k : Int) - (k : Int)))).refcount - 1)
      = 0 := by
    show wrapI32 (wrapI32 (1 + (k : Int) - (k : Int)) - 1) = 0
    unfold wrapI32; omega
  have hlast := releaseMemoryBlock_free hm hz rfl
  generalize releaseTimes k mem (refTimes k mem c1) = ck at hsplit hm hlive hlog hheap hlast
  have hfinal : (releaseTimes (k + 1) mem (refTimes k mem c1)).memLog =
      c.memLog ++ [MemEvent.bytesFreed mem, MemEvent.recordReturned mem] := by
    rw [hsplit, hlast]; show ck.memLog ++ _ = _; rw [hlog]
  refine ⟨hbefore, hfinal, ?_, ?_, ?_, ?_⟩
  · simp [timesFreed, hfinal, List.count_append]
  · simp [timesReturned, hfinal, List.count_append]
  · rw [hsplit, hlast]; show ck.liveRecords - 1 = _; rw [hlive]; omega
  · rw [hsplit, hlast]
    show ck.heapFree + sz = _
    exact hheap

theorem C8_create_ref_release_frees_once_witness :
    (∀ j, j ≤ 1 →
        (releaseTimes j 0 (refTimes 1 0 (createMemoryBlock 8 none exampleCore).2)).memLog =
          exampleCore.memLog ∧
        timesFreed 0 (releaseTimes j 0 (refTimes 1 0 (createMemoryBlock 8 none exampleCore).2)) =
          timesFreed 0 exampleCore ∧
        timesReturned 0
            (releaseTimes j 0 (refTimes 1 0 (createMemoryBlock 8 none exampleCore).2)) =
          timesReturned 0 exampleCore ∧
        (releaseTimes j 0 (refTimes 1 0 (createMemoryBlock 8 none exampleCore).2)).liveRecords =
          exampleCore.liveRecords + 1) ∧
      (releaseTimes (1 + 1) 0 (refTimes 1 0 (createMemoryBlock 8 none exampleCore).2)).memLog =
        exampleCore.memLog ++ [MemEvent.bytesFreed 0, MemEvent.recordReturned 0] ∧
      timesFreed 0 (releaseTimes (1 + 1) 0
          (refTimes 1 0 (createMemoryBlock 8 none exampleCore).2)) =
        timesFreed 0 exampleCore + 1 ∧
      timesReturned 0 (releaseTimes (1 + 1) 0
          (refTimes 1 0 (createMemoryBlock 8 none exampleCore).2)) =
        timesReturned 0 exampleCore + 1 ∧
      (releaseTimes (1 + 1) 0
          (refTimes 1 0 (createMemoryBlock 8 none exampleCore).2)).liveRecords =
        exampleCore.liveRecords ∧
      (releaseTimes (1 + 1) 0 (refTimes 1 0 (createMemoryBlock 8 none exampleCore).2)).heapFree =
        exampleCore.heapFree :=
  C8_create_ref_release_frees_once 8 none exampleCore (createMemoryBlock 8 none exampleCore).2
    0 1 (by decide) (by decide)

/-- C9 (as stated, refuted): on a block fresh from `createMemoryBlock`, two
releases leave the reference count at -1, and release, ref, release returns the
record to the pool twice and frees its bytes twice. -/
theorem C9_unguarded_release_counterexample :
    (createMemoryBlock 8 none exampleCore).1 = some 0 ∧
      refcountOf 0 (applyRefOps 0 (createMemoryBlock 8 none exampleCore).2
        [RefOp.release, RefOp.release]) = some (-1) ∧
      timesReturned 0 (applyRefOps 0 (createMemoryBlock 8 none exampleCore).2
        [RefOp.release, RefOp.ref, RefOp.release]) = 2 ∧
      timesFreed 0 (applyRefOps 0 (createMemoryBlock 8 none exampleCore).2
        [RefOp.release, RefOp.ref, RefOp.release]) = 2 := by
  decide

/-- C9 (amended): for every sequence of `refMemoryBlock` and
`releaseMemoryBlock` calls applied to a block obtained from `createMemoryBlock`
in which every call is made while the count is at least 1 (the caller holds a
reference) and no ref is made at the `int32_t` maximum, after every initial part
of the sequence the reference count is non-negative and the record has been
returned to the pool, and its bytes freed, at most once. -/
theorem C9_refcount_nonneg_single_free (sz : Nat) (alloc : Option Nat) (c c1 : Core) (mem : Nat)
    (hcreate : createMemoryBlock sz alloc c = (some mem, c1))
    (ops done rest : List RefOp) (hsplit : ops = done ++ rest)
    (hused : WellUsed mem c1 ops) :
    (∃ rc, refcountOf mem (applyRefOps mem c1 done) = some rc ∧ 0 ≤ rc) ∧
      timesReturned mem (applyRefOps mem c1 done) ≤ timesReturned mem c + 1 ∧
      timesFreed mem (applyRefOps mem c1 done) ≤ timesFreed mem c + 1 := by
  obtain ⟨hsz, hmem, a, hc1⟩ := createMemoryBlock_some hcreate
  have hm : c1.memPool[mem]? = some (createdRecord sz a 1) := by
    rw [hc1, hmem]; simp [createdRecord]
  have hlog : c1.memLog = c.memLog := by rw [hc1]
  have hinv : RefInv mem (timesReturned mem c) (timesFreed mem c) c1 := by
    refine ⟨_, hm, ?_, ?_, ?_, ?_, ?_⟩
    · show (0 : Int) ≤ 1; decide
    · show (1 : Int) ≤ 2147483647; decide
    · simp [timesReturned, hlog]
    · simp [timesFreed, hlog]
    · intro _; simp [timesReturned, timesFreed, hlog]
  subst hsplit
  have hdone := WellUsed_append_left mem done rest c1 hused
  obtain ⟨m, hm', h0, _, hr, hf, _⟩ := RefInv_applyRefOps mem _ _ done c1 hdone hinv
  exact ⟨⟨m.refcount, by simp [refcountOf, hm'], h0⟩, hr, hf⟩

theorem C9_refcount_nonneg_single_free_witness :
    WellUsed 0 (createMemoryBlock 8 none exampleCore).2
        [RefOp.ref, RefOp.release, RefOp.release] ∧
      ((∃ rc, refcountOf 0 (applyRefOps 0 (createMemoryBlock 8 none exampleCore).2
          [RefOp.ref, RefOp.release]) = some rc ∧ 0 ≤ rc) ∧
        timesReturned 0 (applyRefOps 0 (createMemoryBlock 8 none exampleCore).2
          [RefOp.ref, RefOp.release]) ≤ timesReturned 0 exampleCore + 1 ∧
        timesFreed 0 (applyRefOps 0 (createMemoryBlock 8 none exampleCore).2
          [RefOp.ref, RefOp.release]) ≤ timesFreed 0 exampleCore + 1) :=
  have hused : WellUsed 0 (createMemoryBlock 8 none exampleCore).2
      [RefOp.ref, RefOp.release, RefOp.release] :=
    ⟨⟨1, by decide, by decide, fun _ => by decide⟩,
      ⟨2, by decide, by decide, fun h => absurd h (by decide)⟩,
      ⟨1, by decide, by decide, fun h => absurd h (by decide)⟩, trivial⟩
  ⟨hused,
    C9_refcount_nonneg_single_free 8 none exampleCore (createMemoryBlock 8 none exampleCore).2 0
      (by decide) [RefOp.ref, RefOp.release, RefOp.release] [RefOp.ref, RefOp.release]
      [RefOp.release] rfl hused⟩

/-! ## The asynchronous driver -/

theorem blockReadRaw_frame (uri : String) (pathType : IoPathType) (w : World) :
    (blockReadRaw uri pathType w).2.async = w.async ∧
      (blockReadRaw uri pathType w).2.callbackLog = w.callbackLog ∧
      (blockReadRaw uri pathType w).2.response = w.response ∧
      (blockReadRaw uri pathType w).2.blocking = w.blocking ∧
      (blockReadRaw uri pathType w).2.errorLog = w.errorLog := by
  unfold blockReadRaw
  simp only
  split <;> simp

theorem blockWriteRaw_frame (uri : String) (mem : MemoryBlock) (pathType : IoPathType)
    (w : World) :
    (blockWriteRaw uri mem pathType w).2.async = w.async ∧
      (blockWriteRaw uri mem pathType w).2.callbackLog = w.callbackLog ∧
      (blockWriteRaw uri mem pathType w).2.response = w.response ∧
      (blockWriteRaw uri mem pathType w).2.blocking = w.blocking ∧
      (blockWriteRaw uri mem pathType w).2.core = w.core ∧
      (blockWriteRaw uri mem pathType w).2.errorLog = w.errorLog := by
  unfold blockWriteRaw
  simp only
  split
  · split <;> simp
  · simp

/-- The response loop empties the queue and invokes `dispatch` once per
response, in queue order. -/
theorem drainResponses_eq : ∀ (q : List AsyncResponse) (log : List CallbackEvent),
    drainResponses q log = ([], log ++ q.map dispatch) := by
  intro q
  induction q with
  | nil => intro log; simp [drainResponses]
  | cons r rest ih => intro log; simp [drainResponses, ih]

theorem asyncRunAsyncLoop_registered {w : World} {cb : Nat} {rs : List AsyncResponse}
    (hcb : w.async.callbacks = some cb) (hq : w.async.responseQueue = some rs) :
    asyncRunAsyncLoop w =
      { w with
        async := { w.async with responseQueue := some [] }
        callbackLog := w.callbackLog ++ rs.map dispatch } := by
  simp [asyncRunAsyncLoop, hcb, hq, drainResponses_eq]

/-- C4 (as stated, refuted): on `noCallbackWorld` no callbacks are registered
and one response is queued; after `asyncRunAsyncLoop` the response is still in
the queue. -/
theorem C4_no_callbacks_counterexample :
    noCallbackWorld.async.callbacks = none ∧
      (asyncRunAsyncLoop noCallbackWorld).async.responseQueue =
        some [{ type := AsyncResponseType.RequestReadOk, uri := "a", mem := some 0,
                bytesWritten := 0 }] ∧
      (asyncRunAsyncLoop noCallbackWorld).async.responseQueue ≠ some [] := by
  decide

/-- C4 (amended): for every content of the response queue, `asyncRunAsyncLoop`
on a driver with no callback set registered returns at once: it invokes no
callback and leaves the response queue, like the rest of the state, as it was;
the pending responses stay queued. -/
theorem C4_no_callbacks_returns_at_once (w : World) (hcb : w.async.callbacks = none) :
    asyncRunAsyncLoop w = w ∧
      (asyncRunAsyncLoop w).callbackLog = w.callbackLog ∧
      (asyncRunAsyncLoop w).async.responseQueue = w.async.responseQueue := by
  simp [asyncRunAsyncLoop, hcb]

theorem C4_no_callbacks_returns_at_once_witness :
    asyncRunAsyncLoop noCallbackWorld = noCallbackWorld ∧
      (asyncRunAsyncLoop noCallbackWorld).callbackLog = noCallbackWorld.callbackLog ∧
      (asyncRunAsyncLoop noCallbackWorld).async.responseQueue =
        noCallbackWorld.async.responseQueue :=
  C4_no_callbacks_returns_at_once noCallbackWorld (by decide)

/-- C5 (the code at the failing input): block 0 holds ten zero bytes; an async
write of it to `out.bin`, the worker loop and one `asyncRunAsyncLoop` deliver
exactly one callback, `onWriteComplete` with 10 bytes, but its uri is the empty
path of the worker's unassigned `response.uri`; when a read of `a` was processed
before, the uri is `a`. The file itself is written under `/data/out.bin`. -/
theorem C5_write_callback_carries_stale_uri :
    (asyncRunAsyncLoop (workerDrain
        (asyncWrite "out.bin" 0 IoPathType.Relative tenByteWorld).2)).callbackLog =
        [CallbackEvent.onWriteComplete "" 10] ∧
      (asyncRunAsyncLoop (workerDrain
        (asyncWrite "out.bin" 0 IoPathType.Relative tenByteWorld).2)).fs.files.lookup
          "/data/out.bin" = some [0, 0, 0, 0, 0, 0, 0, 0, 0, 0] ∧
      (asyncRunAsyncLoop (workerDrain
        (asyncWrite "out.bin" 0 IoPathType.Relative
          (asyncRead "a" IoPathType.Relative tenByteWorld).2).2)).callbackLog =
        [CallbackEvent.onReadComplete "a" (some 1), CallbackEvent.onWriteComplete "a" 10] := by
  decide

/-- C7: with a callback set registered, for every content `rs` of the response
queue, `asyncRunAsyncLoop` leaves the response queue empty and appends to the
callback log exactly one callback per response, in queue order, chosen by the
response kind alone: `RequestReadOk` gives `onReadComplete(uri, mem)`,
`RequestOpenFailed` gives `onOpenError(uri)`, `RequestReadFailed` gives
`onReadError(uri)`, `RequestWriteOk` gives `onWriteComplete(uri, bytesWritten)`,
`RequestWriteFailed` gives `onWriteError(uri)`. -/
theorem C7_one_callback_per_response (w : World) (cb : Nat) (rs : List AsyncResponse)
    (hcb : w.async.callbacks = some cb) (hq : w.async.responseQueue = some rs) :
    (asyncRunAsyncLoop w).async.responseQueue = some [] ∧
      ∃ evs, (asyncRunAsyncLoop w).callbackLog = w.callbackLog ++ evs ∧
        evs.length = rs.length ∧
        ∀ (i : Nat) (r : AsyncResponse), rs[i]? = some r →
          ∃ e, evs[i]? = some e ∧
            (r.type = AsyncResponseType.RequestReadOk →
              e = CallbackEvent.onReadComplete r.uri r.mem) ∧
            (r.type = AsyncResponseType.RequestOpenFailed →
              e = CallbackEvent.onOpenError r.uri) ∧
            (r.type = AsyncResponseType.RequestReadFailed →
              e = CallbackEvent.onReadError r.uri) ∧
            (r.type = AsyncResponseType.RequestWriteOk →
              e = CallbackEvent.onWriteComplete r.uri r.bytesWritten) ∧
            (r.type = AsyncResponseType.RequestWriteFailed →
              e = CallbackEvent.onWriteError r.uri) := by
  rw [asyncRunAsyncLoop_registered hcb hq]
  refine ⟨rfl, rs.map dispatch, rfl, by simp, ?_⟩
  intro i r hr
  refine ⟨dispatch r, by simp [hr], ?_, ?_, ?_, ?_, ?_⟩ <;>
    intro ht <;> simp [dispatch, ht]

theorem C7_one_callback_per_response_witness :
    (asyncRunAsyncLoop fiveResponsesWorld).async.responseQueue = some [] ∧
      (asyncRunAsyncLoop fiveResponsesWorld).callbackLog =
        [CallbackEvent.onReadComplete "a" (some 0), CallbackEvent.onOpenError "b",
         CallbackEvent.onReadError "c", CallbackEvent.onWriteComplete "d" 7,
         CallbackEvent.onWriteError "e"] :=
  ⟨(C7_one_callback_per_response fiveResponsesWorld 1 _ (by decide) rfl).1, by decide⟩

theorem createMemoryBlock_fail {sz : Nat} (alloc : Option Nat) {c : Core}
    (h : ¬ sz ≤ c.heapFree) :
    createMemoryBlock sz alloc c =
      (none, { c with
        memPool := c.memPool ++ [HeapMemoryImpl.fresh]
        liveRecords := c.liveRecords + 1 }) := by
  simp [createMemoryBlock, h]

/-- The block and kind `blockReadRaw` returns for a non-empty file that opens:
they depend on the allocation alone. -/
theorem blockReadRaw_result (uri : String) (pathType : IoPathType) (w : World)
    (content : List Byte)
    (hopen : w.fs.files.lookup (resolvePath uri w.blocking.rootDir pathType) = some content)
    (hne : 0 < content.length) :
    (blockReadRaw uri pathType w).1 =
      if toU32 content.length ≤ w.core.heapFree then
        (some w.core.memPool.length, AsyncResponseType.RequestReadOk)
      else (none, AsyncResponseType.RequestReadFailed) := by
  have hlen : (content.length : Int) ≠ 0 := by
    have : content.length ≠ 0 := by omega
    exact_mod_cast this
  by_cases halloc : toU32 content.length ≤ w.core.heapFree
  · simp [blockReadRaw, crtOpenRead, hopen, hlen, createMemoryBlock_ok _ halloc, halloc]
  · simp [blockReadRaw, crtOpenRead, hopen, hlen, createMemoryBlock_fail _ halloc, halloc]

/-- C11 (as stated, refuted): on `shortReadWorld` the file `/data/a` opens and
holds 3 bytes, the read delivers 1 byte, and `blockReadRaw` reports
`RequestReadOk` with a block whose last two bytes were never read. -/
theorem C11_short_read_counterexample :
    shortReadWorld.fs.files.lookup
        (resolvePath "a" shortReadWorld.blocking.rootDir IoPathType.Relative) =
        some [1, 2, 3] ∧
      (crtRead "/data/a" [1, 2, 3] 3 shortReadWorld.fs).1 = [1] ∧
      (blockReadRaw "a" IoPathType.Relative shortReadWorld).1 =
        (some 0, AsyncResponseType.RequestReadOk) ∧
      derefBlock (some 0) (blockReadRaw "a" IoPathType.Relative shortReadWorld).2.core =
        { data := some [1, 0, 0], size := 3 } := by
  decide

/-- C11 (amended): for every uri and path kind, whenever the file opens and is
non-empty, `blockReadRaw` reports `RequestReadOk` with a block exactly when the
allocation succeeds and `RequestReadFailed` with no block exactly when it fails;
the block and the kind are the same whatever bound `cap` the disk puts on the
bytes the read delivers, so a short read is reported as `RequestReadOk`. -/
theorem C11_read_kind_ignores_read_result (uri : String) (pathType : IoPathType) (w : World)
    (content : List Byte)
    (hopen : w.fs.files.lookup (resolvePath uri w.blocking.rootDir pathType) = some content)
    (hne : 0 < content.length) :
    (toU32 content.length ≤ w.core.heapFree →
        (blockReadRaw uri pathType w).1 =
          (some w.core.memPool.length, AsyncResponseType.RequestReadOk)) ∧
      (¬ toU32 content.length ≤ w.core.heapFree →
        (blockReadRaw uri pathType w).1 = (none, AsyncResponseType.RequestReadFailed)) ∧
      ∀ cap : Option Nat,
        (blockReadRaw uri pathType { w with fs := { w.fs with readCap := cap } }).1 =
          (blockReadRaw uri pathType w).1 := by
  refine ⟨?_, ?_, ?_⟩
  · intro h; rw [blockReadRaw_result uri pathType w content hopen hne, if_pos h]
  · intro h; rw [blockReadRaw_result uri pathType w content hopen hne, if_neg h]
  · intro cap
    rw [blockReadRaw_result uri pathType w content hopen hne]
    exact blockReadRaw_result uri pathType
      { w with fs := { w.fs with readCap := cap } } content hopen hne

theorem C11_read_kind_ignores_read_result_witness :
    (blockReadRaw "a" IoPathType.Relative shortReadWorld).1 =
        (some 0, AsyncResponseType.RequestReadOk) ∧
      (blockReadRaw "a" IoPathType.Relative
          { shortReadWorld with fs := { shortReadWorld.fs with readCap := some 0 } }).1 =
        (blockReadRaw "a" IoPathType.Relative shortReadWorld).1 :=
  have h := C11_read_kind_ignores_read_result "a" IoPathType.Relative shortReadWorld [1, 2, 3]
    (by decide) (by decide)
  ⟨h.1 (by decide), h.2.2 (some 0)⟩

theorem toU32_of_lt {n : Nat} (h : n < 4294967296) : toU32 (n : Int) = n := by
  unfold toU32; omega

/-- The block `blockReadRaw` builds when the allocation succeeds and the read
delivers the whole file. -/
theorem blockReadRaw_full_content (uri : String) (pathType : IoPathType) (w : World)
    (content : List Byte)
    (hopen : w.fs.files.lookup (resolvePath uri w.blocking.rootDir pathType) = some content)
    (hpos : 0 < content.length) (hlt : content.length < 4294967296)
    (hfull : capped w.fs.readCap content.length = content.length)
    (halloc : content.length ≤ w.core.heapFree) :
    (blockReadRaw uri pathType w).1 =
        (some w.core.memPool.length, AsyncResponseType.RequestReadOk) ∧
      derefBlock (some w.core.memPool.length) (blockReadRaw uri pathType w).2.core =
        { data := some content, size := content.length } := by
  have hu := toU32_of_lt hlt
  have halloc' : toU32 (content.length : Int) ≤ w.core.heapFree := by rw [hu]; exact halloc
  have hlen : (content.length : Int) ≠ 0 := by
    have : content.length ≠ 0 := by omega
    exact_mod_cast this
  constructor
  · rw [blockReadRaw_result uri pathType w content hopen hpos, if_pos halloc']
  · simp only [blockReadRaw, crtOpenRead, hopen, hlen, ne_eq, not_false_eq_true, if_true,
      hu, createMemoryBlock_ok _ halloc]
    simp [derefBlock, storeBytes, blockSize, crtRead, hfull]

/-- C12: after `blockInit` with root directory `r`, for every uri `u` such that
the file at the (normalised) root joined with `u` holds bytes `b` with
0 < |b| < 2^32 and is read in full (the block is allocated and the read delivers
all |b| bytes), `blockRead(u, Relative)` returns a block, the kind of
`blockReadRaw` is `RequestReadOk`, the block has size |b| and its data equals
`b`, and no diagnostic is logged. -/
theorem C12_blocking_read_returns_content (normalize : String → String) (alloc : Option Nat)
    (r u : String) (b : List Byte) (w : World)
    (hfile : w.fs.files.lookup (pathJoin (normalize r) u) = some b)
    (hpos : 0 < b.length) (hlt : b.length < 4294967296)
    (hfull : capped w.fs.readCap b.length = b.length)
    (halloc : b.length ≤ w.core.heapFree) :
    blockGetUri (blockInit normalize alloc r w).2 = normalize r ∧
      ∃ mem, (blockRead u IoPathType.Relative (blockInit normalize alloc r w).2).1 = some mem ∧
        (blockReadRaw u IoPathType.Relative (blockInit normalize alloc r w).2).1.2 =
          AsyncResponseType.RequestReadOk ∧
        derefBlock (some mem)
            (blockRead u IoPathType.Relative (blockInit normalize alloc r w).2).2.core =
          { data := some b, size := b.length } ∧
        (blockRead u IoPathType.Relative (blockInit normalize alloc r w).2).2.errorLog =
          w.errorLog := by
  obtain ⟨w1, hw1⟩ : ∃ w1, w1 = (blockInit normalize alloc r w).2 := ⟨_, rfl⟩
  have hopen : w1.fs.files.lookup (resolvePath u w1.blocking.rootDir IoPathType.Relative) =
      some b := by
    rw [hw1]; exact hfile
  have hfull1 : capped w1.fs.readCap b.length = b.length := by rw [hw1]; exact hfull
  have halloc1 : b.length ≤ w1.core.heapFree := by rw [hw1]; exact halloc
  obtain ⟨h1, h2⟩ :=
    blockReadRaw_full_content u IoPathType.Relative w1 b hopen hpos hlt hfull1 halloc1
  have hkind : (blockReadRaw u IoPathType.Relative w1).1.2 =
      AsyncResponseType.RequestReadOk := by rw [h1]
  have hmem : (blockReadRaw u IoPathType.Relative w1).1.1 = some w1.core.memPool.length := by
    rw [h1]
  have hread : blockRead u IoPathType.Relative w1 =
      (some w1.core.memPool.length, (blockReadRaw u IoPathType.Relative w1).2) := by
    simp only [blockRead, hkind, hmem]
  refine ⟨rfl, w1.core.memPool.length, ?_, ?_, ?_, ?_⟩
  · rw [← hw1, hread]
  · rw [← hw1, hkind]
  · rw [← hw1, hread]; exact h2
  · rw [← hw1, hread]
    show (blockReadRaw u IoPathType.Relative w1).2.errorLog = _
    rw [(blockReadRaw_frame u IoPathType.Relative w1).2.2.2.2, hw1]
    rfl

theorem C12_blocking_read_returns_content_witness :
    (blockRead "config.txt" IoPathType.Relative (blockInit id none "/data" freshWorld).2).1 =
        some 0 ∧
      (blockGetUri (blockInit id none "/data" freshWorld).2 = id "/data" ∧
        ∃ mem, (blockRead "config.txt" IoPathType.Relative
            (blockInit id none "/data" freshWorld).2).1 = some mem ∧
          (blockReadRaw "config.txt" IoPathType.Relative
            (blockInit id none "/data" freshWorld).2).1.2 = AsyncResponseType.RequestReadOk ∧
          derefBlock (some mem)
              (blockRead "config.txt" IoPathType.Relative
                (blockInit id none "/data" freshWorld).2).2.core =
            { data := some [104, 101, 108, 108, 111], size := [104, 101, 108, 108, 111].length } ∧
          (blockRead "config.txt" IoPathType.Relative
              (blockInit id none "/data" freshWorld).2).2.errorLog = freshWorld.errorLog) :=
  ⟨by decide,
    C12_blocking_read_returns_content id none "/data" "config.txt" [104, 101, 108, 108, 111]
      freshWorld (by decide) (by decide) (by decide) (by decide) (by decide)⟩

theorem blockReadRaw_kind_cases (uri : String) (pathType : IoPathType) (w : World) :
    ((blockReadRaw uri pathType w).1.1 = none ∧
        ((blockReadRaw uri pathType w).1.2 = AsyncResponseType.RequestOpenFailed ∨
          (blockReadRaw uri pathType w).1.2 = AsyncResponseType.RequestReadFailed)) ∨
      (∃ mem, (blockReadRaw uri pathType w).1.1 = some mem ∧
        (blockReadRaw uri pathType w).1.2 = AsyncResponseType.RequestReadOk) := by
  unfold blockReadRaw
  simp only
  split
  · left; simp
  · rename_i content fs1 _
    generalize (if (content.length : Int) ≠ 0 then
        match createMemoryBlock (toU32 content.length) w.blocking.alloc w.core with
        | (some mem, c1) =>
          (some mem, storeBytes mem (crtRead (resolvePath uri w.blocking.rootDir pathType)
            content (blockSize mem c1) fs1).1 c1,
            (crtRead (resolvePath uri w.blocking.rootDir pathType) content
              (blockSize mem c1) fs1).2)
        | (none, c1) => (none, c1, fs1)
      else (none, w.core, fs1)) = r
    cases h : r.1 with
    | none => left; simp [h]
    | some mem => right; exact ⟨mem, by simp [h]⟩

theorem blockWriteRaw_kind_cases (uri : String) (mem : MemoryBlock) (pathType : IoPathType)
    (w : World) :
    ((blockWriteRaw uri mem pathType w).1.1 = 0 ∧
        ((blockWriteRaw uri mem pathType w).1.2 = AsyncResponseType.RequestOpenFailed ∨
          (blockWriteRaw uri mem pathType w).1.2 = AsyncResponseType.RequestWriteFailed)) ∨
      ((blockWriteRaw uri mem pathType w).1.1 ≠ 0 ∧
        (blockWriteRaw uri mem pathType w).1.2 = AsyncResponseType.RequestWriteOk) := by
  unfold blockWriteRaw
  simp only
  split
  · split
    · left; simp
    · rename_i fs1 _
      by_cases h : (crtWrite (resolvePath uri w.blocking.rootDir pathType) mem.data mem.size
          fs1).1 = 0
      · left; simp [h]
      · right; simp [h]
  · left; simp

/-- C13: for every uri, path kind, block and state, `blockRead` returns exactly
the block `blockReadRaw` returns and `blockWrite` exactly the byte count
`blockWriteRaw` returns; the block is null if and only if the kind is not
`RequestReadOk`, the count is 0 if and only if the kind is not
`RequestWriteOk`; and the wrapper leaves the state of the raw call, with one
diagnostic appended to the error log when the kind is a failure kind and none
when it is not. -/
theorem C13_wrappers_follow_raw (uri : String) (pathType : IoPathType) (mem : MemoryBlock)
    (w : World) :
    (blockRead uri pathType w).1 = (blockReadRaw uri pathType w).1.1 ∧
      (blockWrite uri mem pathType w).1 = (blockWriteRaw uri mem pathType w).1.1 ∧
      ((blockRead uri pathType w).1 = none ↔
        (blockReadRaw uri pathType w).1.2 ≠ AsyncResponseType.RequestReadOk) ∧
      ((blockWrite uri mem pathType w).1 = 0 ↔
        (blockWriteRaw uri mem pathType w).1.2 ≠ AsyncResponseType.RequestWriteOk) ∧
      (if isFailureKind (blockReadRaw uri pathType w).1.2 = true then
          ∃ msg, (blockRead uri pathType w).2 =
            { (blockReadRaw uri pathType w).2 with errorLog := w.errorLog ++ [msg] }
        else (blockRead uri pathType w).2 = (blockReadRaw uri pathType w).2 ∧
          (blockRead uri pathType w).2.errorLog = w.errorLog) ∧
      (if isFailureKind (blockWriteRaw uri mem pathType w).1.2 = true then
          ∃ msg, (blockWrite uri mem pathType w).2 =
            { (blockWriteRaw uri mem pathType w).2 with errorLog := w.errorLog ++ [msg] }
        else (blockWrite uri mem pathType w).2 = (blockWriteRaw uri mem pathType w).2 ∧
          (blockWrite uri mem pathType w).2.errorLog = w.errorLog) := by
  have hrl := (blockReadRaw_frame uri pathType w).2.2.2.2
  have hwl := (blockWriteRaw_frame uri mem pathType w).2.2.2.2.2
  have hr1 : (blockRead uri pathType w).1 = (blockReadRaw uri pathType w).1.1 := by
    unfold blockRead; simp only; split <;> rfl
  have hw1 : (blockWrite uri mem pathType w).1 = (blockWriteRaw uri mem pathType w).1.1 := by
    unfold blockWrite; simp only; split <;> rfl
  refine ⟨hr1, hw1, ?_, ?_, ?_, ?_⟩
  · rw [hr1]
    rcases blockReadRaw_kind_cases uri pathType w with ⟨h1, h2 | h2⟩ | ⟨m, h1, h2⟩ <;>
      simp [h1, h2]
  · rw [hw1]
    rcases blockWriteRaw_kind_cases uri mem pathType w with ⟨h1, h2 | h2⟩ | ⟨h1, h2⟩ <;>
      simp [h1, h2]
  · rcases blockReadRaw_kind_cases uri pathType w with ⟨_, h2 | h2⟩ | ⟨m, _, h2⟩
    · simp only [h2, isFailureKind, if_true]
      refine ⟨"Unable to open file " ++ uri ++ " for reading", ?_⟩
      simp only [blockRead, h2, hrl]
    · simp only [h2, isFailureKind, if_true]
      refine ⟨"Unable read file " ++ uri, ?_⟩
      simp only [blockRead, h2, hrl]
    · simp only [h2, isFailureKind, Bool.false_eq_true, if_false]
      refine ⟨by simp only [blockRead, h2], ?_⟩
      simp only [blockRead, h2, hrl]
  · rcases blockWriteRaw_kind_cases uri mem pathType w with ⟨_, h2 | h2⟩ | ⟨_, h2⟩
    · simp only [h2, isFailureKind, if_true]
      refine ⟨"Unable to open file " ++ uri ++ " for writing", ?_⟩
      simp only [blockWrite, h2, hwl]
    · simp only [h2, isFailureKind, if_true]
      refine ⟨"Unable write file " ++ uri, ?_⟩
      simp only [blockWrite, h2, hwl]
    · simp only [h2, isFailureKind, Bool.false_eq_true, if_false]
      refine ⟨by simp only [blockWrite, h2], ?_⟩
      simp only [blockWrite, h2, hwl]

/-- C15 (as stated, refuted): block 0 of `maxRefWorld` has reference count
2^31 - 1; after `asyncWrite` its count is -2^31, not 2^31. -/
theorem C15_max_refcount_counterexample :
    refcountOf 0 maxRefWorld.core = some 2147483647 ∧
      refcountOf 0 (asyncWrite "out.bin" 0 IoPathType.Relative maxRefWorld).2.core =
        some (-2147483648) ∧
      refcountOf 0 (asyncWrite "out.bin" 0 IoPathType.Relative maxRefWorld).2.core ≠
        some (2147483647 + 1) := by
  decide

/-- C15 (amended): for every uri, path kind and block with reference count c,
1 ≤ c < 2^31 - 1, `asyncWrite` raises the count to exactly c + 1 and the Write
request it appends to the request queue carries that same block, so one
`releaseMemoryBlock` by the caller right after the call leaves the count at c and
neither frees the bytes nor returns the record to the pool. -/
theorem C15_async_write_retains_block (uri : String) (pathType : IoPathType) (mem : Nat)
    (w : World) (m : HeapMemoryImpl) (q : List AsyncRequest)
    (hm : w.core.memPool[mem]? = some m) (hlow : 1 ≤ m.refcount)
    (hhigh : m.refcount < 2147483647) (hq : w.async.requestQueue = some q) :
    refcountOf mem (asyncWrite uri mem pathType w).2.core = some (m.refcount + 1) ∧
      (asyncWrite uri mem pathType w).2.async.requestQueue =
        some (q ++ [{ type := AsyncRequestType.Write, uri := uri, mem := some mem,
                      pathType := pathType }]) ∧
      refcountOf mem (releaseMemoryBlock mem (asyncWrite uri mem pathType w).2.core) =
        some m.refcount ∧
      (releaseMemoryBlock mem (asyncWrite uri mem pathType w).2.core).memLog = w.core.memLog ∧
      (releaseMemoryBlock mem (asyncWrite uri mem pathType w).2.core).liveRecords =
        w.core.liveRecords := by
  have hup : wrapI32 (m.refcount + 1) = m.refcount + 1 :=
    wrapI32_of_range (by omega) (by omega)
  have hcore : (asyncWrite uri mem pathType w).2.core =
      { w.core with memPool := w.core.memPool.set mem { m with refcount := m.refcount + 1 } } := by
    show refMemoryBlock mem w.core = _
    rw [refMemoryBlock_eq hm, hup]
  have hm1 : (asyncWrite uri mem pathType w).2.core.memPool[mem]? =
      some { m with refcount := m.refcount + 1 } := by
    rw [hcore]; exact getElem?_set_of_some hm
  have hdown : wrapI32 (m.refcount + 1 - 1) = m.refcount := by
    have : m.refcount + 1 - 1 = m.refcount := by omega
    rw [this]; exact wrapI32_of_range (by omega) (by omega)
  have hne : wrapI32 (({ m with refcount := m.refcount + 1 } : HeapMemoryImpl).refcount - 1) ≠ 0 := by
    show wrapI32 (m.refcount + 1 - 1) ≠ 0
    rw [hdown]; omega
  have hrel := releaseMemoryBlock_keep hm1 hne
  refine ⟨?_, ?_, ?_, ?_, ?_⟩
  · simp [refcountOf, hm1]
  · simp [asyncWrite, hq]
  · rw [hrel]
    simp only [refcountOf]
    show Option.map _ ((List.set _ mem (HeapMemoryImpl.mk m.m (wrapI32 (m.refcount + 1 - 1))
      m.alloc))[mem]?) = _
    rw [hdown, getElem?_set_of_some hm1]
    rfl
  · rw [hrel, hcore]
  · rw [hrel, hcore]

theorem C15_async_write_retains_block_witness :
    refcountOf 0 (asyncWrite "out.bin" 0 IoPathType.Relative tenByteWorld).2.core =
        some ((createdRecord 10 0 1).refcount + 1) ∧
      (asyncWrite "out.bin" 0 IoPathType.Relative tenByteWorld).2.async.requestQueue =
        some ([] ++ [{ type := AsyncRequestType.Write, uri := "out.bin", mem := some 0,
                       pathType := IoPathType.Relative }]) ∧
      refcountOf 0 (releaseMemoryBlock 0
          (asyncWrite "out.bin" 0 IoPathType.Relative tenByteWorld).2.core) =
        some (createdRecord 10 0 1).refcount ∧
      (releaseMemoryBlock 0
          (asyncWrite "out.bin" 0 IoPathType.Relative tenByteWorld).2.core).memLog =
        tenByteWorld.core.memLog ∧
      (releaseMemoryBlock 0
          (asyncWrite "out.bin" 0 IoPathType.Relative tenByteWorld).2.core).liveRecords =
        tenByteWorld.core.liveRecords :=
  C15_async_write_retains_block "out.bin" IoPathType.Relative 0 tenByteWorld
    (createdRecord 10 0 1) [] (by decide) (by decide) (by decide) (by decide)

theorem workerStep_callbackLog (w : World) : (workerStep w).callbackLog = w.callbackLog := by
  unfold workerStep
  split
  · rename_i request rest _
    split
    · exact (blockReadRaw_frame request.uri request.pathType _).2.1
    · exact (blockWriteRaw_frame request.uri _ request.pathType _).2.1
  · rfl

theorem stepCall_callbackLog (w : World) (call : DriverCall) :
    (stepCall w call).callbackLog = w.callbackLog := by
  cases call with
  | read uri pathType => rfl
  | write uri mem pathType => rfl
  | init reqPoolOk respPoolOk alloc uri callbacks =>
    simp only [stepCall, asyncInit]
    cases reqPoolOk <;> cases respPoolOk <;> rfl
  | setCallbacks callbacks => rfl
  | shutdown =>
    simp only [stepCall, asyncShutdown]
    cases w.async.alloc <;> rfl
  | workerIteration => exact workerStep_callbackLog w

/-- C17: no iteration of the worker loop and no call of async read, write,
init, setCallbacks or shutdown invokes a callback: each of them, and every
sequence of them, leaves the log of invoked callbacks as it was. Callbacks are
appended to the log by `asyncRunAsyncLoop` alone. -/
theorem C17_callbacks_only_from_runAsyncLoop (w : World) :
    (∀ call : DriverCall, (stepCall w call).callbackLog = w.callbackLog) ∧
      (∀ calls : List DriverCall, (runCalls w calls).callbackLog = w.callbackLog) ∧
      (workerStep w).callbackLog = w.callbackLog ∧
      (workerDrain w).callbackLog = w.callbackLog := by
  have hcalls : ∀ (calls : List DriverCall) (v : World),
      (runCalls v calls).callbackLog = v.callbackLog := by
    intro calls
    induction calls with
    | nil => intro v; rfl
    | cons c cs ih =>
      intro v
      show (runCalls (stepCall v c) cs).callbackLog = _
      rw [ih, stepCall_callbackLog]
  have hsteps : ∀ (n : Nat) (v : World), (workerSteps n v).callbackLog = v.callbackLog := by
    intro n
    induction n with
    | zero => intro v; rfl
    | succ n ih => intro v; show (workerSteps n (workerStep v)).callbackLog = _
                   rw [ih, workerStep_callbackLog]
  refine ⟨stepCall_callbackLog w, fun calls => hcalls calls w, workerStep_callbackLog w, ?_⟩
  unfold workerDrain
  split
  · rfl
  · exact hsteps _ w

/-- C18: `asyncShutdown` on a driver that was never initialised (its allocator
is null, as the constructor leaves it) is a no-op: no thread is joined, no queue
or pool is freed, and the state, every field of the async driver included, is
unchanged. -/
theorem C18_shutdown_uninitialised_noop (w : World) (hnever : w.async.alloc = none) :
    asyncShutdown w = ([], w) ∧
      (asyncShutdown w).2.async = w.async ∧
      DriverEffect.threadJoined ∉ (asyncShutdown w).1 := by
  simp [asyncShutdown, hnever]

theorem C18_shutdown_uninitialised_noop_witness :
    freshWorld.async = AsyncAssetDriver.initial ∧
      (asyncShutdown freshWorld = ([], freshWorld) ∧
        (asyncShutdown freshWorld).2.async = freshWorld.async ∧
        DriverEffect.threadJoined ∉ (asyncShutdown freshWorld).1) :=
  ⟨rfl, C18_shutdown_uninitialised_noop freshWorld rfl⟩

/-- C19 (the code at the failing input): on a fresh driver, `asyncInit` with
root `/data` succeeds and `asyncGetUri` then returns the empty path, because
`asyncInit` never assigns `rootDir`; `blockInit` with the same root makes
`blockGetUri` return `/data`. -/
theorem C19_async_root_never_set :
    (asyncInit true true (some 0) "/data" (some 1) freshWorld).1.1 = InitResult.ok ∧
      asyncGetUri (asyncInit true true (some 0) "/data" (some 1) freshWorld).2 = "" ∧
      blockGetUri (blockInit id (some 0) "/data" freshWorld).2 = "/data" ∧
      asyncGetUri (asyncInit true true (some 0) "/data" (some 1) freshWorld).2 ≠
        blockGetUri (blockInit id (some 0) "/data" freshWorld).2 := by
  decide

/-- C20 (the code at the failing input): `createMemoryBlock`,
`refMemoryBlockPtr` and `copyMemoryBlock` call `newInstance` between `lock()` and
`unlock()`; `releaseMemoryBlock`, when the count reaches zero, takes and gives
back the lock in the statement before `deleteInstance`, so `deleteInstance` runs
without the lock. -/
theorem C20_deleteInstance_outside_lock :
    poolGuarded createMemoryBlockSteps = true ∧
      poolGuarded refMemoryBlockPtrSteps = true ∧
      poolGuarded copyMemoryBlockSteps = true ∧
      releaseMemoryBlockSteps true true =
        [PoolStep.atomicDec, PoolStep.freeBytes, PoolStep.lockAcquire, PoolStep.lockRelease,
         PoolStep.deleteInstance] ∧
      poolGuarded (releaseMemoryBlockSteps true true) = false ∧
      poolGuarded (releaseMemoryBlockSteps true false) = false := by
  decide

/-! ## The pending counter -/

/-- Every statement keeps the counter equal, as an `int32_t`, to the number of
pending requests. -/
theorem stepPending_counter (s : PendingState) (step : PendingStep)
    (h : s.numRequests = wrapI32 (pendingTotal s)) :
    (stepPending s step).numRequests = wrapI32 (pendingTotal (stepPending s step)) := by
  cases step with
  | beginSubmit request =>
    cases hs : s.submitting with
    | none =>
      simp only [stepPending, hs, pendingTotal, h] at *
      simp only [Option.isSome_none, Option.isSome_some, Bool.false_eq_true, if_false, if_true]
      rw [wrapI32_add_wrap]
      congr 1
      split <;> push_cast <;> omega
    | some r => simpa [stepPending, hs] using h
  | finishSubmit =>
    cases hs : s.submitting with
    | none => simpa [stepPending, hs] using h
    | some r =>
      simp only [stepPending, hs, pendingTotal, h] at *
      simp only [Option.isSome_none, Option.isSome_some, Bool.false_eq_true, if_false, if_true,
        List.length_append, List.length_singleton]
  | workerPop =>
    by_cases hd : s.dequeued = true
    · simpa [stepPending, hd] using h
    · cases hq : s.requestQueue with
      | nil => simpa [stepPending, hd, hq] using h
      | cons r rest =>
        have hd' : s.dequeued = false := by simpa using hd
        simp only [stepPending, hd', hq, pendingTotal, h] at *
        simp only [Bool.false_eq_true, if_false, if_true, List.length_cons]
        congr 1
        push_cast
        omega
  | workerDecrement =>
    by_cases hd : s.dequeued = true
    · simp only [stepPending, hd, pendingTotal, h] at *
      simp only [if_true, Bool.false_eq_true, if_false]
      have key : ∀ a : Int, wrapI32 (wrapI32 a - 1) = wrapI32 (a - 1) := by
        intro a; unfold wrapI32; omega
      rw [key]
      congr 1
      push_cast
      omega
    · simpa [stepPending, hd] using h

theorem runPending_counter : ∀ (steps : List PendingStep) (s : PendingState),
    s.numRequests = wrapI32 (pendingTotal s) →
    (runPending s steps).numRequests = wrapI32 (pendingTotal (runPending s steps)) := by
  intro steps
  induction steps with
  | nil => intro s h; exact h
  | cons step rest ih =>
    intro s h
    exact ih _ (stepPending_counter s step h)

theorem runPending_flood (request : AsyncRequest) : ∀ (k : Nat) (s : PendingState),
    s.submitting = none →
    (runPending s (floodSteps request k)).requestQueue.length = s.requestQueue.length + k ∧
      (runPending s (floodSteps request k)).submitting = none ∧
      (runPending s (floodSteps request k)).dequeued = s.dequeued := by
  intro k
  induction k with
  | zero => intro s h; exact ⟨rfl, h, rfl⟩
  | succ k ih =>
    intro s h
    have hstep : runPending s (floodSteps request (k + 1)) =
        runPending { s with numRequests := wrapI32 (s.numRequests + 1)
                            requestQueue := s.requestQueue ++ [request] }
          (floodSteps request k) := by
      simp [floodSteps, runPending, stepPending, h]
    rw [hstep]
    obtain ⟨h1, h2, h3⟩ := ih
      { s with numRequests := wrapI32 (s.numRequests + 1)
               requestQueue := s.requestQueue ++ [request] } h
    refine ⟨?_, h2, h3⟩
    rw [h1]
    simp only [List.length_append, List.length_singleton]
    omega

/-- After 2^31 complete submissions and no dequeue the counter has wrapped. -/
theorem flood_wraps_counter (k : Nat) (hk : k = 2147483648) :
    (runPending PendingState.initial (floodSteps readRequestA k)).numRequests = -2147483648 ∧
      (runPending PendingState.initial (floodSteps readRequestA k)).requestQueue.length = k ∧
      (runPending PendingState.initial (floodSteps readRequestA k)).submitting = none ∧
      (runPending PendingState.initial (floodSteps readRequestA k)).dequeued = false := by
  obtain ⟨h1, h2, h3⟩ := runPending_flood readRequestA k PendingState.initial rfl
  have hinv := runPending_counter (floodSteps readRequestA k) PendingState.initial (by decide)
  have hlen : (runPending PendingState.initial (floodSteps readRequestA k)).requestQueue.length
      = k := by
    rw [h1]; show 0 + k = k; omega
  have hd : (runPending PendingState.initial (floodSteps readRequestA k)).dequeued = false := by
    rw [h3]; rfl
  refine ⟨?_, hlen, h2, hd⟩
  rw [hinv]
  simp only [pendingTotal, hlen, h2, hd, Option.isSome_none, Bool.false_eq_true, if_false]
  subst hk
  unfold wrapI32
  omega

/-- C21 (as stated, refuted): starting from a freshly initialised driver, after
2^31 complete submissions and no dequeue, no submit or dequeue is in progress,
the request queue holds 2^31 requests and the `int32_t` counter is -2^31: it is
negative and below the queue length. -/
theorem C21_counter_wraps_counterexample :
    (runPending PendingState.initial (floodSteps readRequestA 2147483648)).numRequests =
        -2147483648 ∧
      (runPending PendingState.initial
        (floodSteps readRequestA 2147483648)).requestQueue.length = 2147483648 ∧
      (runPending PendingState.initial (floodSteps readRequestA 2147483648)).submitting = none ∧
      (runPending PendingState.initial (floodSteps readRequestA 2147483648)).dequeued = false :=
  flood_wraps_counter 2147483648 rfl

/-- C21 (amended): in every state reached from a freshly initialised async
driver by the statements of submissions and of worker dequeues, in which fewer
than 2^31 requests are pending (queued, being submitted, or just popped), the
pending counter is non-negative and at least the number of requests in the
request queue, and it equals that number whenever no submit and no dequeue is
between its two statements. -/
theorem C21_pending_counter_tracks_queue (steps : List PendingStep)
    (hbound : pendingTotal (runPending PendingState.initial steps) < 2147483648) :
    0 ≤ (runPending PendingState.initial steps).numRequests ∧
      ((runPending PendingState.initial steps).requestQueue.length : Int) ≤
        (runPending PendingState.initial steps).numRequests ∧
      ((runPending PendingState.initial steps).submitting = none →
        (runPending PendingState.initial steps).dequeued = false →
        (runPending PendingState.initial steps).numRequests =
          (runPending PendingState.initial steps).requestQueue.length) ∧
      (runPending PendingState.initial steps).numRequests =
        pendingTotal (runPending PendingState.initial steps) := by
  have hinv := runPending_counter steps PendingState.initial (by decide)
  generalize runPending PendingState.initial steps = s at hbound hinv ⊢
  have hval : s.numRequests = (pendingTotal s : Int) := by
    rw [hinv]; exact wrapI32_of_range (by omega) (by omega)
  have hge : s.requestQueue.length ≤ pendingTotal s := by
    unfold pendingTotal; omega
  refine ⟨by rw [hval]; omega, by rw [hval]; exact_mod_cast hge, ?_, hval⟩
  intro h1 h2
  rw [hval]
  simp [pendingTotal, h1, h2]

theorem C21_pending_counter_tracks_queue_witness :
    (runPending PendingState.initial
        [PendingStep.beginSubmit readRequestA, PendingStep.finishSubmit,
         PendingStep.beginSubmit readRequestA, PendingStep.workerPop]).numRequests = 2 ∧
      (0 ≤ (runPending PendingState.initial
          [PendingStep.beginSubmit readRequestA, PendingStep.finishSubmit,
           PendingStep.beginSubmit readRequestA, PendingStep.workerPop]).numRequests ∧
        ((runPending PendingState.initial
          [PendingStep.beginSubmit readRequestA, PendingStep.finishSubmit,
           PendingStep.beginSubmit readRequestA,
           PendingStep.workerPop]).requestQueue.length : Int) ≤
          (runPending PendingState.initial
            [PendingStep.beginSubmit readRequestA, PendingStep.finishSubmit,
             PendingStep.beginSubmit readRequestA, PendingStep.workerPop]).numRequests ∧
        ((runPending PendingState.initial
            [PendingStep.beginSubmit readRequestA, PendingStep.finishSubmit,
             PendingStep.beginSubmit readRequestA, PendingStep.workerPop]).submitting = none →
          (runPending PendingState.initial
            [PendingStep.beginSubmit readRequestA, PendingStep.finishSubmit,
             PendingStep.beginSubmit readRequestA, PendingStep.workerPop]).dequeued = false →
          (runPending PendingState.initial
            [PendingStep.beginSubmit readRequestA, PendingStep.finishSubmit,
             PendingStep.beginSubmit readRequestA, PendingStep.workerPop]).numRequests =
            (runPending PendingState.initial
              [PendingStep.beginSubmit readRequestA, PendingStep.finishSubmit,
               PendingStep.beginSubmit readRequestA,
               PendingStep.workerPop]).requestQueue.length) ∧
        (runPending PendingState.initial
            [PendingStep.beginSubmit readRequestA, PendingStep.finishSubmit,
             PendingStep.beginSubmit readRequestA, PendingStep.workerPop]).numRequests =
          pendingTotal (runPending PendingState.initial
            [PendingStep.beginSubmit readRequestA, PendingStep.finishSubmit,
             PendingStep.beginSubmit readRequestA, PendingStep.workerPop])) :=
  ⟨by decide,
    C21_pending_counter_tracks_queue
      [PendingStep.beginSubmit readRequestA, PendingStep.finishSubmit,
       PendingStep.beginSubmit readRequestA, PendingStep.workerPop] (by decide)⟩

/-- A whole `asyncRead` is its two statements. -/
theorem asyncRead_pending (uri : String) (pathType : IoPathType) (w : World)
    (q : List AsyncRequest) (hq : w.async.requestQueue = some q) :
    pendingOf (asyncRead uri pathType w).2 =
      runPending (pendingOf w)
        [PendingStep.beginSubmit { type := AsyncRequestType.Read, uri := uri, mem := none,
                                   pathType := pathType },
         PendingStep.finishSubmit] := by
  simp [pendingOf, asyncRead, hq, runPending, stepPending]

/-- A whole `asyncWrite` is its two statements. -/
theorem asyncWrite_pending (uri : String) (mem : Nat) (pathType : IoPathType) (w : World)
    (q : List AsyncRequest) (hq : w.async.requestQueue = some q) :
    pendingOf (asyncWrite uri mem pathType w).2 =
      runPending (pendingOf w)
        [PendingStep.beginSubmit { type := AsyncRequestType.Write, uri := uri, mem := some mem,
                                   pathType := pathType },
         PendingStep.finishSubmit] := by
  simp [pendingOf, asyncWrite, hq, runPending, stepPending]

/-! ## The payload of an asynchronous write -/

theorem getElem?_append_set_length {α : Type} (l : List α) (x y a : α) (i : Nat)
    (h : l[i]? = some a) : ((l ++ [x]).set l.length y)[i]? = some a := by
  obtain ⟨hi, _⟩ := List.getElem?_eq_some.mp h
  rw [List.getElem?_set_ne (by omega), List.getElem?_append_left hi, h]

/-- A read leaves every record that exists before it, and the memory log, as
they are. -/
theorem blockReadRaw_keeps_record (uri : String) (pathType : IoPathType) (w : World)
    (mem : Nat) (m : HeapMemoryImpl) (hm : w.core.memPool[mem]? = some m) :
    (blockReadRaw uri pathType w).2.core.memPool[mem]? = some m ∧
      (blockReadRaw uri pathType w).2.core.memLog = w.core.memLog := by
  obtain ⟨hi, _⟩ := List.getElem?_eq_some.mp hm
  unfold blockReadRaw
  simp only [crtOpenRead]
  cases hl : w.fs.files.lookup (resolvePath uri w.blocking.rootDir pathType) with
  | none => exact ⟨hm, rfl⟩
  | some content =>
    by_cases hz : (content.length : Int) = 0
    · simp [hz, hm]
    · simp only [hz, ne_eq, not_false_eq_true, if_true]
      by_cases ha : toU32 content.length ≤ w.core.heapFree
      · simp only [createMemoryBlock_ok _ ha]
        simp only [storeBytes, List.getElem?_concat_length]
        constructor
        · exact getElem?_append_set_length _ _ _ _ _ hm
        · trivial
      · simp only [createMemoryBlock_fail _ ha]
        exact ⟨by rw [List.getElem?_append_left hi]; exact hm, trivial⟩

/-- One worker iteration, whatever the request, leaves every existing record
and the memory log as they are. -/
theorem workerStep_keeps_record (w : World) (mem : Nat) (m : HeapMemoryImpl)
    (hm : w.core.memPool[mem]? = some m) :
    (workerStep w).core.memPool[mem]? = some m ∧ (workerStep w).core.memLog = w.core.memLog := by
  unfold workerStep
  split
  · rename_i request rest _
    split
    · exact blockReadRaw_keeps_record request.uri request.pathType _ mem m hm
    · have h := (blockWriteRaw_frame request.uri
        (derefBlock request.mem w.core) request.pathType
        { w with async := { w.async with
            requestQueue := some rest
            numRequests := wrapI32 (w.async.numRequests - 1) } }).2.2.2.2.1
      constructor
      · show (blockWriteRaw _ _ _ _).2.core.memPool[mem]? = _
        rw [h]; exact hm
      · show (blockWriteRaw _ _ _ _).2.core.memLog = _
        rw [h]
  · exact ⟨hm, rfl⟩

theorem workerSteps_keeps_record (mem : Nat) (m : HeapMemoryImpl) : ∀ (n : Nat) (w : World),
    w.core.memPool[mem]? = some m →
    (workerSteps n w).core.memPool[mem]? = some m ∧
      (workerSteps n w).core.memLog = w.core.memLog := by
  intro n
  induction n with
  | zero => intro w h; exact ⟨h, rfl⟩
  | succ n ih =>
    intro w h
    obtain ⟨h1, h2⟩ := workerStep_keeps_record w mem m h
    obtain ⟨i1, i2⟩ := ih (workerStep w) h1
    exact ⟨i1, i2.trans h2⟩

theorem workerDrain_keeps_record (w : World) (mem : Nat) (m : HeapMemoryImpl)
    (hm : w.core.memPool[mem]? = some m) :
    (workerDrain w).core.memPool[mem]? = some m ∧ (workerDrain w).core.memLog = w.core.memLog := by
  unfold workerDrain
  split
  · exact ⟨hm, rfl⟩
  · exact workerSteps_keeps_record mem m _ w hm

theorem asyncRunAsyncLoop_core (w : World) : (asyncRunAsyncLoop w).core = w.core := by
  unfold asyncRunAsyncLoop
  split
  · rfl
  · split <;> rfl

/-- C22 (as stated, refuted): block 0 of `maxRefWorld` has reference count
2^31 - 1; after `asyncWrite`, the worker loop and `asyncRunAsyncLoop` the write
was delivered and the count is -2^31, not one more than before. -/
theorem C22_max_refcount_counterexample :
    refcountOf 0 maxRefWorld.core = some 2147483647 ∧
      (asyncRunAsyncLoop (workerDrain
        (asyncWrite "out.bin" 0 IoPathType.Relative maxRefWorld).2)).callbackLog =
        [CallbackEvent.onWriteComplete "" 1] ∧
      refcountOf 0 (asyncRunAsyncLoop (workerDrain
        (asyncWrite "out.bin" 0 IoPathType.Relative maxRefWorld).2)).core =
        some (-2147483648) ∧
      refcountOf 0 (asyncRunAsyncLoop (workerDrain
        (asyncWrite "out.bin" 0 IoPathType.Relative maxRefWorld).2)).core ≠
        some (2147483647 + 1) := by
  decide

/-- C22 (amended): for every write request on a block with reference count c,
1 ≤ c < 2^31 - 1, after the submit, the worker loop (whatever requests were
queued before the write and whatever the result kinds) and the delivery by
`asyncRunAsyncLoop`, the block's reference count is exactly c + 1 and nothing
was freed or returned to the pool: the driver never releases the reference it
took. When the caller then releases its own handle the count is c and the block
is neither freed nor returned to the pool. -/
theorem C22_write_reference_never_released (uri : String) (pathType : IoPathType) (mem : Nat)
    (w : World) (m : HeapMemoryImpl)
    (hm : w.core.memPool[mem]? = some m) (hlow : 1 ≤ m.refcount)
    (hhigh : m.refcount < 2147483647) :
    refcountOf mem
        (asyncRunAsyncLoop (workerDrain (asyncWrite uri mem pathType w).2)).core =
        some (m.refcount + 1) ∧
      (asyncRunAsyncLoop (workerDrain (asyncWrite uri mem pathType w).2)).core.memLog =
        w.core.memLog ∧
      refcountOf mem (releaseMemoryBlock mem
        (asyncRunAsyncLoop (workerDrain (asyncWrite uri mem pathType w).2)).core) =
        some m.refcount ∧
      (releaseMemoryBlock mem
        (asyncRunAsyncLoop (workerDrain (asyncWrite uri mem pathType w).2)).core).memLog =
        w.core.memLog := by
  have hup : wrapI32 (m.refcount + 1) = m.refcount + 1 :=
    wrapI32_of_range (by omega) (by omega)
  have hcore : (asyncWrite uri mem pathType w).2.core =
      { w.core with memPool := w.core.memPool.set mem { m with refcount := m.refcount + 1 } } := by
    show refMemoryBlock mem w.core = _
    rw [refMemoryBlock_eq hm, hup]
  have hm1 : (asyncWrite uri mem pathType w).2.core.memPool[mem]? =
      some { m with refcount := m.refcount + 1 } := by
    rw [hcore]; exact getElem?_set_of_some hm
  have hlog1 : (asyncWrite uri mem pathType w).2.core.memLog = w.core.memLog := by rw [hcore]
  obtain ⟨hm2, hlog2⟩ := workerDrain_keeps_record (asyncWrite uri mem pathType w).2 mem _ hm1
  have hc3 := asyncRunAsyncLoop_core (workerDrain (asyncWrite uri mem pathType w).2)
  rw [← hc3] at hm2 hlog2
  generalize (asyncRunAsyncLoop (workerDrain (asyncWrite uri mem pathType w).2)).core = c3
    at hm2 hlog2 ⊢
  have hdown : wrapI32 (m.refcount + 1 - 1) = m.refcount := by
    have : m.refcount + 1 - 1 = m.refcount := by omega
    rw [this]; exact wrapI32_of_range (by omega) (by omega)
  have hne : wrapI32 (({ m with refcount := m.refcount + 1 } : HeapMemoryImpl).refcount - 1)
      ≠ 0 := by
    show wrapI32 (m.refcount + 1 - 1) ≠ 0
    rw [hdown]; omega
  have hrel := releaseMemoryBlock_keep hm2 hne
  refine ⟨?_, ?_, ?_, ?_⟩
  · simp [refcountOf, hm2]
  · rw [hlog2, hlog1]
  · rw [hrel]
    simp only [refcountOf]
    show Option.map _ ((List.set _ mem (HeapMemoryImpl.mk m.m (wrapI32 (m.refcount + 1 - 1))
      m.alloc))[mem]?) = _
    rw [hdown, getElem?_set_of_some hm2]
    rfl
  · rw [hrel]
    show c3.memLog = _
    rw [hlog2, hlog1]

theorem C22_write_reference_never_released_witness :
    refcountOf 0
        (asyncRunAsyncLoop (workerDrain
          (asyncWrite "out.bin" 0 IoPathType.Relative tenByteWorld).2)).core =
        some ((createdRecord 10 0 1).refcount + 1) ∧
      (asyncRunAsyncLoop (workerDrain
        (asyncWrite "out.bin" 0 IoPathType.Relative tenByteWorld).2)).core.memLog =
        tenByteWorld.core.memLog ∧
      refcountOf 0 (releaseMemoryBlock 0
        (asyncRunAsyncLoop (workerDrain
          (asyncWrite "out.bin" 0 IoPathType.Relative tenByteWorld).2)).core) =
        some (createdRecord 10 0 1).refcount ∧
      (releaseMemoryBlock 0
        (asyncRunAsyncLoop (workerDrain
          (asyncWrite "out.bin" 0 IoPathType.Relative tenByteWorld).2)).core).memLog =
        tenByteWorld.core.memLog :=
  C22_write_reference_never_released "out.bin" IoPathType.Relative 0 tenByteWorld
    (createdRecord 10 0 1) (by decide) (by decide) (by decide)

/-! ## Allocation failure -/

theorem copyMemoryBlock_fail (data : List Byte) {sz : Nat} (alloc : Option Nat) {c : Core}
    (h : ¬ sz ≤ c.heapFree) :
    copyMemoryBlock data sz alloc c =
      (none, { c with
        memPool := c.memPool ++ [HeapMemoryImpl.fresh]
        liveRecords := c.liveRecords + 1 }) := by
  simp [copyMemoryBlock, h]

/-- C23: when `createMemoryBlock` or `copyMemoryBlock` fails to allocate the
backing bytes it returns no block, and the record it took from the pool is not
given back: the live-record count is one greater than before the call, nothing
was passed to `deleteInstance`, and the record sits in the pool as constructed
(null data, count 1) with no handle to it returned. -/
theorem C23_failed_allocation_keeps_record (data : List Byte) (size : Nat)
    (alloc : Option Nat) (c : Core) (hfail : ¬ size ≤ c.heapFree) :
    ((createMemoryBlock size alloc c).1 = none ∧
        (createMemoryBlock size alloc c).2.liveRecords = c.liveRecords + 1 ∧
        (createMemoryBlock size alloc c).2.memLog = c.memLog ∧
        (createMemoryBlock size alloc c).2.memPool = c.memPool ++ [HeapMemoryImpl.fresh] ∧
        (createMemoryBlock size alloc c).2.heapFree = c.heapFree) ∧
      ((copyMemoryBlock data size alloc c).1 = none ∧
        (copyMemoryBlock data size alloc c).2.liveRecords = c.liveRecords + 1 ∧
        (copyMemoryBlock data size alloc c).2.memLog = c.memLog ∧
        (copyMemoryBlock data size alloc c).2.memPool = c.memPool ++ [HeapMemoryImpl.fresh] ∧
        (copyMemoryBlock data size alloc c).2.heapFree = c.heapFree) := by
  rw [createMemoryBlock_fail alloc hfail, copyMemoryBlock_fail data alloc hfail]
  exact ⟨⟨rfl, rfl, rfl, rfl, rfl⟩, ⟨rfl, rfl, rfl, rfl, rfl⟩⟩

theorem C23_failed_allocation_keeps_record_witness :
    ((createMemoryBlock 100 none exampleCore).1 = none ∧
        (createMemoryBlock 100 none exampleCore).2.liveRecords = exampleCore.liveRecords + 1 ∧
        (createMemoryBlock 100 none exampleCore).2.memLog = exampleCore.memLog ∧
        (createMemoryBlock 100 none exampleCore).2.memPool =
          exampleCore.memPool ++ [HeapMemoryImpl.fresh] ∧
        (createMemoryBlock 100 none exampleCore).2.heapFree = exampleCore.heapFree) ∧
      ((copyMemoryBlock [1, 2] 100 none exampleCore).1 = none ∧
        (copyMemoryBlock [1, 2] 100 none exampleCore).2.liveRecords =
          exampleCore.liveRecords + 1 ∧
        (copyMemoryBlock [1, 2] 100 none exampleCore).2.memLog = exampleCore.memLog ∧
        (copyMemoryBlock [1, 2] 100 none exampleCore).2.memPool =
          exampleCore.memPool ++ [HeapMemoryImpl.fresh] ∧
        (copyMemoryBlock [1, 2] 100 none exampleCore).2.heapFree = exampleCore.heapFree) :=
  C23_failed_allocation_keeps_record [1, 2] 100 none exampleCore (by decide)

end Termite
